import Mathlib

/-!
Verification of the core grid, insertion, word-class and match-engine
behaviours of the vte terminal widget, as implemented in src/vte.c, over a
shallow embedding.  Machine integers (gunichar, glong, guint) are modelled as
Nat or Int; the row ring (vtering.c), the basic cell (vterowdata.c) and the
iso2022 width/charset tables (vteiso2022.c) are not part of src/ and are
modelled from the specification where noted.
-/

set_option maxHeartbeats 1000000

namespace Vte

/-- Palette index used for the default foreground colour (VTE_DEF_FG). -/
def VTE_DEF_FG : Nat := 256

/-- Palette index used for the default background colour (VTE_DEF_BG). -/
def VTE_DEF_BG : Nat := 257

/-- Packed cell attributes (struct VteCellAttr).  Bit-fields are modelled as
Bool and Nat fields. -/
structure VteCellAttr where
  fragment : Bool
  columns : Nat
  fore : Nat
  back : Nat
  standout : Bool
  underline : Bool
  strikethrough : Bool
  reverse : Bool
  blink : Bool
  half : Bool
  bold : Bool
  invisible : Bool
deriving Repr, DecidableEq

/-- One grid cell: a "unistr" payload plus attributes.  A unistr (vteunistr.c)
is either a plain Unicode scalar or an interned base-plus-combining-marks
sequence; it is modelled as the nonempty list base :: marks, so the plain
character x is [x] and the zero character is [0]. -/
structure VteCell where
  c : List Nat
  attr : VteCellAttr
deriving Repr, DecidableEq

/-- Appending a combining mark to a unistr (_vte_unistr_append_unichar,
vteunistr.c): the interned sequence grows by one mark. -/
def _vte_unistr_append_unichar (s : List Nat) (m : Nat) : List Nat := s ++ [m]

/-- Base character of a unistr (_vte_unistr_get_base, vteunistr.c). -/
def _vte_unistr_get_base (s : List Nat) : Nat := s.headD 0

/-- Modelled from the spec: the terminal-default blank cell `basic_cell`
(vterowdata.c, not under src/).  Per the data model, a blank default cell has
the zero character, one column, the default fg/bg palette slots and no
attribute bits set. -/
def basic_cell : VteCell :=
  { c := [0]
  , attr :=
    { fragment := false, columns := 1, fore := VTE_DEF_FG, back := VTE_DEF_BG
    , standout := false, underline := false, strikethrough := false
    , reverse := false, blink := false, half := false, bold := false
    , invisible := false } }

/-- One row of the grid (VteRowData): an ordered list of cells plus the
soft-wrap flag (row->attr.soft_wrapped). -/
structure VteRowData where
  cells : List VteCell
  soft_wrapped : Bool
deriving Repr, DecidableEq

/-- List insertion at an index, shifting the suffix right; inserting past the
end leaves the list unchanged (mirrors the valid-use envelope of
g_array_insert_val). -/
def listInsertAt {α : Type} : List α → Nat → α → List α
  | l, 0, a => a :: l
  | [], _ + 1, _ => []
  | x :: xs, n + 1, a => x :: listInsertAt xs n a

/-- List removal at an index, shifting the suffix left; removing past the end
leaves the list unchanged. -/
def listEraseAt {α : Type} : List α → Nat → List α
  | [], _ => []
  | _ :: xs, 0 => xs
  | x :: xs, n + 1 => x :: listEraseAt xs n

/-- Number of cells in a row (_vte_row_data_length). -/
def _vte_row_data_length (row : VteRowData) : Nat := row.cells.length

/-- Cell lookup in a row (_vte_row_data_get / _vte_row_data_get_writable);
none models a NULL pointer result. -/
def _vte_row_data_get (row : VteRowData) (col : Nat) : Option VteCell :=
  row.cells.get? col

/-- Padding a row out to len cells with copies of the given cell
(_vte_row_data_fill): only extends, never overwrites existing cells. -/
def _vte_row_data_fill (row : VteRowData) (cell : VteCell) (len : Nat) : VteRowData :=
  { row with cells := row.cells ++ List.replicate (len - row.cells.length) cell }

/-- Inserting a cell at a column, shifting the rest right
(_vte_row_data_insert). -/
def _vte_row_data_insert (row : VteRowData) (col : Nat) (cell : VteCell) : VteRowData :=
  { row with cells := listInsertAt row.cells col cell }

/-- Truncating a row to at most len cells (_vte_row_data_shrink). -/
def _vte_row_data_shrink (row : VteRowData) (len : Nat) : VteRowData :=
  { row with cells := row.cells.take len }

/-- Writing one cell of a row in place (assignment through the pointer
returned by _vte_row_data_get_writable). -/
def rowSetCell (row : VteRowData) (col : Nat) (cell : VteCell) : VteRowData :=
  { row with cells := row.cells.set col cell }

/-- Reading a cell and writing back a modified copy in place; a missing cell
(NULL pointer) leaves the row unchanged. -/
def rowModifyCell (row : VteRowData) (col : Nat) (f : VteCell → VteCell) : VteRowData :=
  match row.cells.get? col with
  | some cl => rowSetCell row col (f cl)
  | none => row

/-- Modelled from the spec: the ring buffer of rows (vtering.c, not under
src/).  delta is the index of the oldest retained row, next() is one past the
newest, and next() - delta() never exceeds the capacity. -/
structure VteRing where
  delta : Nat
  rows : List VteRowData
  capacity : Nat
deriving Repr, DecidableEq

/-- Blank freshly inserted row. -/
def emptyRowData : VteRowData := { cells := [], soft_wrapped := false }

/-- One past the newest retained row (_vte_ring_next). -/
def _vte_ring_next (r : VteRing) : Nat := r.delta + r.rows.length

/-- Index of the oldest retained row (_vte_ring_delta). -/
def _vte_ring_delta (r : VteRing) : Nat := r.delta

/-- Validity of an absolute row index (_vte_ring_contains). -/
def _vte_ring_contains (r : VteRing) (i : Nat) : Bool :=
  decide (r.delta ≤ i) && decide (i < _vte_ring_next r)

/-- Reading the row at an absolute index (_vte_ring_index). -/
def _vte_ring_index (r : VteRing) (i : Nat) : Option VteRowData :=
  r.rows.get? (i - r.delta)

/-- Modelled from the spec: inserting a fresh blank row at an absolute
position (_vte_ring_insert).  The spec's append "increments next, and
increments delta when full", so when the insertion would exceed the capacity
the oldest row is dropped and delta incremented. -/
def _vte_ring_insert (r : VteRing) (position : Nat) : VteRing :=
  let rows2 := listInsertAt r.rows (position - r.delta) emptyRowData
  if r.capacity < rows2.length then
    { r with delta := r.delta + 1, rows := rows2.drop 1 }
  else
    { r with rows := rows2 }

/-- Modelled from the spec: removing the row at an absolute interior position
(_vte_ring_remove). -/
def _vte_ring_remove (r : VteRing) (position : Nat) : VteRing :=
  { r with rows := listEraseAt r.rows (position - r.delta) }

/-- Appending a fresh row after the newest one (_vte_ring_append). -/
def _vte_ring_append (r : VteRing) : VteRing :=
  _vte_ring_insert r (_vte_ring_next r)

/-- Writing a whole row back through the pointer obtained from
_vte_ring_index_writable. -/
def ringSetRow (r : VteRing) (i : Nat) (row : VteRowData) : VteRing :=
  { r with rows := r.rows.set (i - r.delta) row }

/-- Reading a row and writing back a modified copy in place; a missing row
leaves the ring unchanged. -/
def ringModifyRow (r : VteRing) (i : Nat) (f : VteRowData → VteRowData) : VteRing :=
  match r.rows.get? (i - r.delta) with
  | some row => ringSetRow r i (f row)
  | none => r

/-- Cursor position (VteVisualPosition). -/
structure VteVisualPosition where
  row : Nat
  col : Nat
deriving Repr, DecidableEq

/-- Coordinates of the cached match range; can hold the sentinel values -1 and
-2 used when no match is cached, hence Int. -/
structure MatchCoords where
  row : Int
  col : Int
deriving Repr, DecidableEq

/-- One screen (struct VteScreen): row ring, cursor, scrolling region, modes
and the three attribute-default cells. -/
structure VteScreen where
  row_data : VteRing
  cursor_current : VteVisualPosition
  insert_delta : Nat
  scroll_delta : Nat
  scrolling_restricted : Bool
  scrolling_region_start : Nat
  scrolling_region_end : Nat
  insert_mode : Bool
  alternate_charset : Bool
  status_line : Bool
  status_line_contents : List Nat
  status_line_changed : Bool
  defaults : VteCell
  color_defaults : VteCell
  fill_defaults : VteCell
deriving Repr, DecidableEq

/-- Model of the g_unichar character classification predicates consumed by
vte_terminal_is_word_char; the Unicode tables live outside the core. -/
structure UnicharProps where
  isgraph : Nat → Bool
  ispunct : Nat → Bool
  isspace : Nat → Bool

/-- One configured word-character range (VteWordCharRange); the source field
`end` is a reserved word in Lean and is named stop here. -/
structure VteWordCharRange where
  start : Nat
  stop : Nat
deriving Repr, DecidableEq

/-- One registered match regex (struct vte_match_regex).  The compiled GRegex
is opaque to the core and modelled as an abstract handle; none models the NULL
pointer left in a cleared entry. -/
structure MatchRegexEntry where
  regex : Option Nat
  match_flags : Nat
  tag : Int
deriving Repr, DecidableEq

/-- Terminal state (the parts of VteTerminalPrivate the verified claims
touch): the active screen, the grid dimensions, the termcap flags am/xn/ul,
the decoder width and charset maps, the word-char table, the match-regex
table and the last-match cache. -/
structure VteTerminal where
  screen : VteScreen
  column_count : Nat
  row_count : Nat
  flag_am : Bool
  flag_xn : Bool
  flag_ul : Bool
  unichar_width : Nat → Nat
  charset_map : Nat → Nat
  props : UnicharProps
  word_chars : Option (List VteWordCharRange)
  match_regexes : List MatchRegexEntry
  match_tag : Int
  match_start : MatchCoords
  match_end : MatchCoords
  match_str : Option (List Nat)
  match_contents : Option (List Nat)
  show_match : Bool
  text_inserted_flag : Bool

/-- Row lookup guarded by _vte_ring_contains (_vte_screen_find_row_data). -/
def _vte_screen_find_row_data (screen : VteScreen) (row : Nat) : Option VteRowData :=
  if _vte_ring_contains screen.row_data row then _vte_ring_index screen.row_data row
  else none

/-- Cell lookup in the backscroll buffer (vte_screen_find_charcell). -/
def vte_screen_find_charcell (screen : VteScreen) (col row : Nat) : Option VteCell :=
  match _vte_screen_find_row_data screen row with
  | some rowdata => _vte_row_data_get rowdata col
  | none => none

/-- Word-character test (vte_terminal_is_word_char): first the configured
range table, then — for non-ASCII characters, or when no table is set — the
graphic, non-punctuation, non-space, non-NUL fallback. -/
def vte_terminal_is_word_char (t : VteTerminal) (c : Nat) : Bool :=
  (match t.word_chars with
   | some ranges => ranges.any (fun r => decide (r.start ≤ c) && decide (c ≤ r.stop))
   | none => false) ||
  ((decide (0x80 ≤ c) || t.word_chars.isNone ||
      decide ((t.word_chars.getD []).length = 0)) &&
   t.props.isgraph c && !t.props.ispunct c && !t.props.isspace c &&
   decide (c ≠ 0))

/-- Word-class comparison of two grid positions (vte_same_class).  Note the
early FALSE when the first cell is not a word character ("Lets not group
non-wordchars together", bug #25290). -/
def vte_same_class (t : VteTerminal) (acol arow bcol brow : Nat) : Bool :=
  match vte_screen_find_charcell t.screen acol arow with
  | some pcell =>
    if pcell.c ≠ [0] then
      let word_char := vte_terminal_is_word_char t (_vte_unistr_get_base pcell.c)
      if !word_char then false
      else
        match vte_screen_find_charcell t.screen bcol brow with
        | some pcellb =>
          if pcellb.c = [0] then false
          else if word_char ≠ vte_terminal_is_word_char t (_vte_unistr_get_base pcellb.c) then
            false
          else true
        | none => false
    else false
  | none => false

/-- Clearing one match-regex entry in place (regex_match_clear): the compiled
regex is released and the tag becomes the hole marker -1. -/
def regex_match_clear (r : MatchRegexEntry) : MatchRegexEntry :=
  { r with regex := none, tag := -1 }

/-- Resetting the last-match cache (vte_terminal_match_hilite_clear): the
cached range gets the empty sentinel, the tag becomes -1 and the cached text
is freed. -/
def vte_terminal_match_hilite_clear (t : VteTerminal) : VteTerminal :=
  { t with
    match_start := { row := -1, col := -1 },
    match_end := { row := -2, col := -2 },
    match_tag := -1,
    show_match := false,
    match_str := none }

/-- Removing a registered regex (vte_terminal_match_remove): the entry keeps
its slot and becomes a hole; nothing is shifted.  An already-removed tag
returns early without touching the hilite cache, matching the source. -/
def vte_terminal_match_remove (t : VteTerminal) (tag : Int) : VteTerminal :=
  if 0 ≤ tag ∧ tag.toNat < t.match_regexes.length then
    match t.match_regexes.get? tag.toNat with
    | some regex =>
      if regex.tag < 0 then t
      else
        vte_terminal_match_hilite_clear
          { t with match_regexes := t.match_regexes.set tag.toNat (regex_match_clear regex) }
    | none => t
  else vte_terminal_match_hilite_clear t

/-- Index scanned for by vte_terminal_match_add_gregex: the first hole
(tag = -1), or the table length when there is none. -/
def matchAddScan : List MatchRegexEntry → Nat
  | [] => 0
  | e :: rest => if e.tag = -1 then 0 else matchAddScan rest + 1

/-- Registering a regex (vte_terminal_match_add_gregex): the first hole is
reused, otherwise the entry is appended; the returned tag is the slot
index. -/
def vte_terminal_match_add_gregex (t : VteTerminal) (regex : Nat) (flags : Nat) :
    VteTerminal × Int :=
  let ret := matchAddScan t.match_regexes
  let new_entry : MatchRegexEntry := { regex := some regex, match_flags := flags, tag := ret }
  if ret < t.match_regexes.length then
    ({ t with match_regexes := t.match_regexes.set ret new_entry }, ret)
  else
    ({ t with match_regexes := t.match_regexes ++ [new_entry] }, ret)

/-- Test whether an absolute (row, col) position lies inside the cached match
range (rowcol_inside_match). -/
def rowcol_inside_match (t : VteTerminal) (row col : Int) : Bool :=
  if t.match_start.row = t.match_end.row then
    decide (row = t.match_start.row) && decide (t.match_start.col ≤ col) &&
      decide (col ≤ t.match_end.col)
  else if row < t.match_start.row || row > t.match_end.row then false
  else if row = t.match_start.row then decide (t.match_start.col ≤ col)
  else if row = t.match_end.row then decide (col ≤ t.match_end.col)
  else true

/-- Match lookup (vte_terminal_match_check).  The regex scan
vte_terminal_match_check_internal — which rebuilds the projection cache when
empty and runs the registered GRegexes over it — involves the external regex
engine and is taken as the parameter internal; the source first consults the
cached range and only falls back to the scan outside it.  The result triple
is (returned text, stored tag, updated terminal). -/
def vte_terminal_match_check
    (internal : VteTerminal → Int → Int → Option (List Nat) × Int × VteTerminal)
    (t : VteTerminal) (column row : Int) : Option (List Nat) × Int × VteTerminal :=
  let delta : Int := (t.screen.scroll_delta : Int)
  if rowcol_inside_match t (row + delta) column then
    (t.match_str, t.match_tag, t)
  else
    internal t column (row + delta)

/-! Insertion engine (vte.c): cursor motion, scrolling and
_vte_terminal_insert_char, modelled as pure state transformers.  Each C
pointer write into a ring row is expressed as an in-place update of the row at
the index the pointer refers to. -/

/-- Replacing the whole ring of the active screen. -/
def terminalSetRing (t : VteTerminal) (r : VteRing) : VteTerminal :=
  { t with screen := { t.screen with row_data := r } }

/-- In-place update of the row at an absolute index (a write through the
pointer returned by _vte_ring_index_writable). -/
def terminalModifyRow (t : VteTerminal) (i : Nat) (f : VteRowData → VteRowData) : VteTerminal :=
  terminalSetRing t (ringModifyRow t.screen.row_data i f)

/-- Cursor column assignment. -/
def terminalSetCursorCol (t : VteTerminal) (c : Nat) : VteTerminal :=
  { t with screen := { t.screen with
      cursor_current := { t.screen.cursor_current with col := c } } }

/-- Cursor row assignment. -/
def terminalSetCursorRow (t : VteTerminal) (r : Nat) : VteTerminal :=
  { t with screen := { t.screen with
      cursor_current := { t.screen.cursor_current with row := r } } }

/-- Row lookup at an absolute ring index. -/
def terminalGetRow (t : VteTerminal) (i : Nat) : Option VteRowData :=
  _vte_ring_index t.screen.row_data i

/-- One iteration of the catch-up loop in _vte_buffer_ring_insert: append a
row and fill it with fill_defaults out to column_count. -/
def ringAppendFillOnce (t : VteTerminal) : VteTerminal :=
  let pos := _vte_ring_next t.screen.row_data
  let t2 := terminalSetRing t (_vte_ring_append t.screen.row_data)
  terminalModifyRow t2 pos
    (fun row => _vte_row_data_fill row t2.screen.fill_defaults t2.column_count)

/-- Iterating the catch-up loop a fixed number of times; each iteration raises
next() by one, so position - next() iterations reach the target. -/
def ringAppendFillN (t : VteTerminal) : Nat → VteTerminal
  | 0 => t
  | n + 1 => ringAppendFillN (ringAppendFillOnce t) n

/-- Buffer-level row insertion (_vte_buffer_ring_insert): catch the ring up to
position, insert a fresh row there and optionally fill it with
fill_defaults. -/
def _vte_buffer_ring_insert (t : VteTerminal) (position : Nat) (fill : Bool) : VteTerminal :=
  let t2 := ringAppendFillN t (position - _vte_ring_next t.screen.row_data)
  let t3 := terminalSetRing t2 (_vte_ring_insert t2.screen.row_data position)
  if fill then
    terminalModifyRow t3 position
      (fun row => _vte_row_data_fill row t3.screen.fill_defaults t3.column_count)
  else t3

/-- Buffer-level row removal (_vte_buffer_ring_remove). -/
def _vte_buffer_ring_remove (t : VteTerminal) (position : Nat) : VteTerminal :=
  terminalSetRing t (_vte_ring_remove t.screen.row_data position)

/-- Buffer-level row append (_vte_buffer_ring_append). -/
def _vte_buffer_ring_append (t : VteTerminal) (fill : Bool) : VteTerminal :=
  _vte_buffer_ring_insert t (_vte_ring_next t.screen.row_data) fill

/-- Appending cnt rows (vte_terminal_insert_rows); the source's do-while runs
cnt iterations for the positive counts it is called with. -/
def vte_terminal_insert_rows (t : VteTerminal) : Nat → VteTerminal
  | 0 => t
  | n + 1 => vte_terminal_insert_rows (_vte_buffer_ring_append t false) n

/-- State effects of _vte_terminal_adjust_adjustments: snap insert_delta and
the cursor row into the retained area and clamp scroll_delta down to
insert_delta (via vte_terminal_queue_adjustment_value_changed); the GTK
adjustment bookkeeping itself is display-only. -/
def _vte_terminal_adjust_adjustments (t : VteTerminal) : VteTerminal :=
  let d := _vte_ring_delta t.screen.row_data
  let ins := max t.screen.insert_delta d
  let crow := max t.screen.cursor_current.row ins
  let scr := if ins < t.screen.scroll_delta then ins else t.screen.scroll_delta
  { t with screen := { t.screen with
      insert_delta := ins,
      cursor_current := { t.screen.cursor_current with row := crow },
      scroll_delta := scr } }

/-- Ensuring the cursor row exists (_vte_terminal_ensure_row); the row the
returned pointer designates is the cursor row at entry. -/
def _vte_terminal_ensure_row (t : VteTerminal) : VteTerminal :=
  let v := t.screen.cursor_current.row
  if _vte_ring_next t.screen.row_data ≤ v then
    _vte_terminal_adjust_adjustments
      (vte_terminal_insert_rows t (v + 1 - _vte_ring_next t.screen.row_data))
  else t

/-- Catching the buffer up to the cursor and snapping the insert delta
(_vte_terminal_update_insert_delta); the glong arithmetic is carried out in
Int as in the source, and the final value is at least the ring delta, hence
non-negative. -/
def _vte_terminal_update_insert_delta (t : VteTerminal) : VteTerminal :=
  let rows := _vte_ring_next t.screen.row_data
  let t2 := if rows ≤ t.screen.cursor_current.row
            then vte_terminal_insert_rows t (t.screen.cursor_current.row + 1 - rows)
            else t
  let rows2 : Int := (_vte_ring_next t2.screen.row_data : Int)
  let d1 : Int := min (t2.screen.insert_delta : Int) (rows2 - (t2.row_count : Int))
  let d2 : Int := max d1 ((t2.screen.cursor_current.row : Int) - ((t2.row_count : Int) - 1))
  let d3 : Int := max d2 ((_vte_ring_delta t2.screen.row_data : Int))
  if d3 ≠ (t2.screen.insert_delta : Int) then
    _vte_terminal_adjust_adjustments
      { t2 with screen := { t2.screen with insert_delta := d3.toNat } }
  else t2

/-- Padding the cursor row with basic cells out to the cursor column
(vte_terminal_ensure_cursor). -/
def vte_terminal_ensure_cursor (t : VteTerminal) : VteTerminal :=
  let rowIdx := t.screen.cursor_current.row
  let t2 := _vte_terminal_ensure_row t
  terminalModifyRow t2 rowIdx
    (fun row => _vte_row_data_fill row basic_cell t2.screen.cursor_current.col)

/-- Walking a column left over fragment cells to the first cell of a wide or
tab character (the shared while-loop shape of vte.c: step left while the
current cell exists, is a fragment and the column is positive). -/
def backOverFragments (row : VteRowData) : Nat → Nat
  | 0 => 0
  | n + 1 =>
    match row.cells.get? (n + 1) with
    | some cl => if cl.attr.fragment then backOverFragments row n else n + 1
    | none => n + 1

/-- Writing n consecutive cells starting at col through f, stopping at the end
of the row. -/
def setCellsFrom (f : VteCell → VteCell) : List VteCell → Nat → Nat → List VteCell
  | cells, _, 0 => cells
  | cells, col, n + 1 =>
    match cells.get? col with
    | some cl => setCellsFrom f (cells.set col (f cl)) (col + 1) n
    | none => cells

/-- Collapsing the tab under the cursor
(_vte_terminal_cleanup_tab_fragments_at_cursor): when the cursor cell holds a
tab, every cell of that tab is reset to the fill-default blank. -/
def _vte_terminal_cleanup_tab_fragments_at_cursor (t : VteTerminal) : VteTerminal :=
  let rowIdx := t.screen.cursor_current.row
  let t2 := _vte_terminal_ensure_row t
  let col := t2.screen.cursor_current.col
  terminalModifyRow t2 rowIdx (fun row =>
    match _vte_row_data_get row col with
    | some pcell =>
      if pcell.c = [9] then
        let col2 := backOverFragments row col
        match _vte_row_data_get row col2 with
        | some cl =>
          { row with cells :=
              setCellsFrom (fun _ => t2.screen.fill_defaults) row.cells col2 cl.attr.columns }
        | none => row
      else row
    | none => row)

/-- Line feed with scrolling (_vte_terminal_cursor_down).  At the bottom of a
region starting at the top of the visible area the top row is pushed into
history; at the bottom of an interior region the top region row is removed and
a fresh filled row inserted at the region bottom; at the bottom of the
unrestricted screen the cursor advances and the insert delta catches up;
anywhere else the cursor just moves down.  The xterm-style coloured-erase
fills only run when the fill background differs from the default. -/
def _vte_terminal_cursor_down (t : VteTerminal) : VteTerminal :=
  let scr := t.screen
  let start := if scr.scrolling_restricted then scr.insert_delta + scr.scrolling_region_start
               else scr.insert_delta
  let end_ := if scr.scrolling_restricted then scr.insert_delta + scr.scrolling_region_end
              else scr.insert_delta + t.row_count - 1
  if scr.cursor_current.row = end_ then
    let t1 :=
      if scr.fill_defaults.attr.back ≠ VTE_DEF_BG then
        let rowIdx := t.screen.cursor_current.row
        let ta := _vte_terminal_ensure_row t
        terminalModifyRow ta rowIdx
          (fun row => _vte_row_data_fill row ta.screen.fill_defaults ta.column_count)
      else t
    let t2 :=
      if t1.screen.scrolling_restricted then
        if start = t1.screen.insert_delta then
          let t1b := { t1 with screen := { t1.screen with
              insert_delta := t1.screen.insert_delta + 1,
              scroll_delta := t1.screen.scroll_delta + 1,
              cursor_current := { t1.screen.cursor_current with
                row := t1.screen.cursor_current.row + 1 } } }
          _vte_terminal_adjust_adjustments
            (_vte_buffer_ring_insert t1b t1b.screen.cursor_current.row false)
        else
          _vte_buffer_ring_insert (_vte_buffer_ring_remove t1 start) end_ true
      else
        _vte_terminal_update_insert_delta
          (terminalSetCursorRow t1 (t1.screen.cursor_current.row + 1))
    if t2.screen.fill_defaults.attr.back ≠ VTE_DEF_BG then
      let rowIdx2 := t2.screen.cursor_current.row
      let tb := _vte_terminal_ensure_row t2
      terminalModifyRow tb rowIdx2
        (fun row => _vte_row_data_fill row tb.screen.fill_defaults tb.column_count)
    else t2
  else
    terminalSetCursorRow t (t.screen.cursor_current.row + 1)

/-- Insert-mode padding loop of _vte_terminal_insert_char: columns cells of
color_defaults inserted one by one at col, col + 1, ... -/
def insertPadLoop (color : VteCell) : Nat → Nat → VteRowData → VteRowData
  | _, 0, row => row
  | col, n + 1, row => insertPadLoop color (col + 1) n (_vte_row_data_insert row col color)

/-- Padding step of _vte_terminal_insert_char (vte.c lines 2531-2536): in
insert mode columns cells of color_defaults are inserted at the cursor column;
otherwise the row is padded out to col + columns with the basic cell. -/
def insertCharPadCells (scr : VteScreen) (col columns : Nat) (insert : Bool)
    (row : VteRowData) : VteRowData :=
  if insert then insertPadLoop scr.color_defaults col columns row
  else _vte_row_data_fill row basic_cell (col + columns)

/-- Left half of the broken-wide-character conversion (vte.c lines 2540-2546):
the first cell of a wide character that begins before the write position keeps
its character and has its column count truncated to the cells remaining before
the write. -/
def insertCharBreakLeft (col : Nat) (row : VteRowData) : VteRowData :=
  if 0 < col then
    let col2 := backOverFragments row (col - 1)
    rowModifyCell row col2 (fun cl => { cl with attr := { cl.attr with columns := col - col2 } })
  else row

/-- Blanking a run of fragment cells (the while-loop of vte.c lines
2547-2555): each leading fragment cell becomes a one-column cell holding the
zero character; the fragment bit itself is not cleared by the source. -/
def blankWideFragments : List VteCell → List VteCell
  | [] => []
  | cl :: rest =>
    if cl.attr.fragment then
      { cl with c := [0], attr := { cl.attr with columns := 1 } } :: blankWideFragments rest
    else cl :: rest

/-- Right half of the broken-wide-character conversion: fragment cells at and
after col + columns are blanked. -/
def insertCharBreakRight (colw : Nat) (row : VteRowData) : VteRowData :=
  { row with cells := row.cells.take colw ++ blankWideFragments (row.cells.drop colw) }

/-- Fragment-cell write loop: n cells from col on are overwritten with the
wide-character continuation cell. -/
def writeFragLoop (cu : List Nat) (attrF : VteCellAttr) :
    List VteCell → Nat → Nat → List VteCell
  | cells, _, 0 => cells
  | cells, col, n + 1 =>
    writeFragLoop cu attrF (cells.set col { c := cu, attr := attrF }) (col + 1) n

/-- Cell-write phase of _vte_terminal_insert_char (vte.c lines 2557-2589):
the attributes come from the screen defaults with the character's width; an
underscore written onto a populated cell with the ul termcap flag set instead
re-writes the old cell underlined (overstrike underlining); the base cell is
written at col and columns - 1 fragment copies follow; finally the row is
shrunk to the column count. -/
def insertCharWriteCell (defaults : VteCell) (ul : Bool) (cc : Nat) (c columns col : Nat)
    (row : VteRowData) : VteRowData :=
  let attr0 := { defaults.attr with columns := columns }
  let cua : List Nat × VteCellAttr :=
    if c = 95 ∧ ul then
      match _vte_row_data_get row col with
      | some pcell =>
        if pcell.c ≠ [0] then
          (pcell.c, { attr0 with columns := pcell.attr.columns,
                                 fragment := pcell.attr.fragment, underline := true })
        else ([c], attr0)
      | none => ([c], attr0)
    else ([c], attr0)
  let cells1 := row.cells.set col { c := cua.1, attr := cua.2 }
  let cells2 := writeFragLoop cua.1 { cua.2 with fragment := true } cells1 (col + 1) (columns - 1)
  { row with cells := cells2.take cc }

/-- Core write phase of _vte_terminal_insert_char (vte.c lines 2525-2601):
ensure the cursor cell exists, collapse tabs, pad (insert or overwrite),
convert broken wide characters, write the character cells and advance the
cursor column by the character width. -/
def insertCharMain (t : VteTerminal) (c : Nat) (columns : Nat) (insert : Bool) : VteTerminal :=
  let col := t.screen.cursor_current.col
  let rowIdx := t.screen.cursor_current.row
  let t1 := vte_terminal_ensure_cursor t
  let t2 := _vte_terminal_cleanup_tab_fragments_at_cursor t1
  let t3 := terminalModifyRow t2 rowIdx (insertCharPadCells t2.screen col columns insert)
  let t4 := terminalModifyRow t3 rowIdx (insertCharBreakLeft col)
  let t5 := terminalModifyRow t4 rowIdx (insertCharBreakRight (col + columns))
  let t6 := terminalModifyRow t5 rowIdx
    (insertCharWriteCell t5.screen.defaults t5.flag_ul t5.column_count c columns col)
  terminalSetCursorCol t6 (col + columns)

/-- Pre-write autowrap (vte.c lines 2428-2447): a character that no longer
fits either wraps the cursor onto the next row (am set: mark the current row
soft-wrapped and run the cursor-down primitive) or is clamped against the
right margin (am clear).  The returned Bool is the line_wrapped flag. -/
def insertCharPreWrap (t : VteTerminal) (columns : Nat) : VteTerminal × Bool :=
  if columns ≠ 0 ∧ t.column_count < t.screen.cursor_current.col + columns then
    if t.flag_am then
      let t1 := terminalSetCursorCol t 0
      let rowIdx := t1.screen.cursor_current.row
      let t2 := _vte_terminal_ensure_row t1
      let t3 := terminalModifyRow t2 rowIdx (fun row => { row with soft_wrapped := true })
      (_vte_terminal_cursor_down t3, true)
    else
      (terminalSetCursorCol t (t.column_count - columns), true)
  else (t, false)

/-- Post-write autowrap (vte.c lines 2600-2610): only with am set and the xn
flag clear does reaching the right margin wrap immediately; with xn set the
cursor is left at the margin for the next character to trigger the wrap. -/
def insertCharPostWrap (t : VteTerminal) (rowIdx : Nat) : VteTerminal :=
  if t.column_count ≤ t.screen.cursor_current.col then
    if t.flag_am ∧ ¬ t.flag_xn then
      let t1 := terminalSetCursorCol t 0
      let t2 := terminalModifyRow t1 rowIdx (fun row => { row with soft_wrapped := true })
      _vte_terminal_cursor_down t2
    else t
  else t

/-- Combining-mark branch of _vte_terminal_insert_char (columns = 0): find the
previous cell — crossing a soft-wrap boundary when at column 0 — walk back to
the start of a wide character, refuse tabs, and merge the mark into the unistr
of every cell of that character. -/
def insertCharCombining (t : VteTerminal) (c : Nat) : VteTerminal :=
  let col := t.screen.cursor_current.col
  let row_num := t.screen.cursor_current.row
  let target : Option (Nat × Nat) :=
    if col = 0 then
      if 0 < row_num then
        match _vte_screen_find_row_data t.screen (row_num - 1) with
        | some row =>
          if row.soft_wrapped then some (row_num - 1, _vte_row_data_length row) else none
        | none => none
      else none
    else
      match _vte_screen_find_row_data t.screen row_num with
      | some _ => some (row_num, col)
      | none => none
  match target with
  | none => t
  | some rc =>
    if rc.2 = 0 then t
    else
      match _vte_screen_find_row_data t.screen rc.1 with
      | none => t
      | some row =>
        match _vte_row_data_get row (rc.2 - 1) with
        | none => t
        | some _ =>
          let col2 := backOverFragments row (rc.2 - 1)
          match _vte_row_data_get row col2 with
          | none => t
          | some cl =>
            if cl.c = [9] then t
            else
              let cu := _vte_unistr_append_unichar cl.c c
              let t2 := terminalModifyRow t rc.1 (fun rw =>
                { rw with cells :=
                    setCellsFrom (fun x => { x with c := cu }) rw.cells col2 cl.attr.columns })
              { t2 with text_inserted_flag := true }

/-- Inserting one decoded code point (_vte_terminal_insert_char).  Character
width comes from the terminal's unichar_width map (the source's
encoded-width escape hatch is a vteiso2022 decoder detail resolved before
this point); invalidate_now only affects repainting and is ignored.  The
returned Bool is line_wrapped: whether the cursor moved before the character
was inserted. -/
def _vte_terminal_insert_char (t : VteTerminal) (c0 : Nat) (insert0 : Bool)
    (_invalidate_now : Bool) : VteTerminal × Bool :=
  let insert := insert0 || t.screen.insert_mode
  let c := if t.screen.alternate_charset then t.charset_map c0 else c0
  if t.screen.status_line then
    ({ t with screen := { t.screen with
        status_line_contents := t.screen.status_line_contents ++ [c],
        status_line_changed := true } }, false)
  else
    let columns := t.unichar_width c
    let pre := insertCharPreWrap t columns
    if columns = 0 then
      (insertCharCombining pre.1 c, pre.2)
    else
      let rowIdx := pre.1.screen.cursor_current.row
      let t2 := insertCharMain pre.1 c columns insert
      let t3 := insertCharPostWrap t2 rowIdx
      ({ t3 with text_inserted_flag := true }, pre.2)

/-- Modelled from the spec: the backspace cursor motion used by the overstrike
law (the backspace sequence handler lives in vteseq.c, not under src/) — the
cursor column moves back one column, stopping at the left margin. -/
def backspaceCursor (t : VteTerminal) : VteTerminal :=
  terminalSetCursorCol t (t.screen.cursor_current.col - 1)

/-- Cells written by the overwrite path for a width-w character: the base cell
followed by w - 1 fragment copies, all carrying the screen defaults. -/
def writtenCells (defaults : VteCell) (c w : Nat) : List VteCell :=
  { c := [c], attr := { defaults.attr with columns := w } } ::
    List.replicate (w - 1)
      { c := [c], attr := { { defaults.attr with columns := w } with fragment := true } }

/-! Test fixtures: concrete terminal states used for witnesses and
counterexamples.  The sample Unicode predicates are faithful to glib on the
code points they are applied to. -/

/-- Sample Unicode classification: ASCII 0x21 to 0x7E graphic, the full stop
0x2E the only punctuation probed, the blank 0x20 the only space probed. -/
def sampleProps : UnicharProps := {
  isgraph := fun c => decide (0x21 ≤ c ∧ c ≤ 0x7E),
  ispunct := fun c => decide (c = 0x2E),
  isspace := fun c => decide (c = 0x20) }

/-- Empty 100-capacity ring. -/
def testRing : VteRing := { delta := 0, rows := [], capacity := 100 }

/-- Screen in its reset state: empty ring, cursor at the origin, defaults all
equal to the basic cell (_vte_screen_set_default_attributes). -/
def testScreen : VteScreen := {
  row_data := testRing,
  cursor_current := { row := 0, col := 0 },
  insert_delta := 0,
  scroll_delta := 0,
  scrolling_restricted := false,
  scrolling_region_start := 0,
  scrolling_region_end := 0,
  insert_mode := false,
  alternate_charset := false,
  status_line := false,
  status_line_contents := [],
  status_line_changed := false,
  defaults := basic_cell,
  color_defaults := basic_cell,
  fill_defaults := basic_cell }

/-- Default 80x24 test terminal with xterm-like flags and a narrow-only width
table. -/
def testTerminal : VteTerminal := {
  screen := testScreen,
  column_count := 80,
  row_count := 24,
  flag_am := true,
  flag_xn := true,
  flag_ul := false,
  unichar_width := fun _ => 1,
  charset_map := fun c => c,
  props := sampleProps,
  word_chars := none,
  match_regexes := [],
  match_tag := -1,
  match_start := { row := -1, col := -1 },
  match_end := { row := -2, col := -2 },
  match_str := none,
  match_contents := none,
  show_match := false,
  text_inserted_flag := false }

/-- Terminal whose Unicode predicates accept 0x2013 as graphic and whose
word-char table is non-empty and does not contain it. -/
def wordCharTerm : VteTerminal := { testTerminal with
  props := {
    isgraph := fun c => decide ((0x21 ≤ c ∧ c ≤ 0x7E) ∨ c = 0x2013),
    ispunct := fun c => decide (c = 0x2E),
    isspace := fun c => decide (c = 0x20) },
  word_chars := some [{ start := 0x30, stop := 0x39 }] }

/-- Row of two full-stop cells. -/
def dotRow : VteRowData :=
  { cells := [{ basic_cell with c := [0x2E] }, { basic_cell with c := [0x2E] }],
    soft_wrapped := false }

/-- Terminal holding one row with two full-stop cells: both populated, both
non-word under the sample predicates. -/
def sameClassTerm : VteTerminal := { testTerminal with
  screen := { testScreen with
    row_data := { delta := 0, rows := [dotRow], capacity := 100 } } }

/-- Table with a single live entry carrying tag 0. -/
def regTerm : VteTerminal := { testTerminal with
  match_regexes := [{ regex := some 7, match_flags := 5, tag := 0 }] }

/-- Terminal with a cached successful match spanning (2,1) to (2,5), tag 0,
cached text "hi". -/
def cachedMatchTerm : VteTerminal := { testTerminal with
  match_start := { row := 2, col := 1 },
  match_end := { row := 2, col := 5 },
  match_tag := 0,
  match_str := some [104, 105] }

/-- Terminal for the C1 scenario: fill_defaults carries background palette
slot 1 (an SGR-coloured erase background), one empty row, cursor at column 2,
insert mode off. -/
def c1Term : VteTerminal := { testTerminal with
  screen := { testScreen with
    row_data := { delta := 0, rows := [emptyRowData], capacity := 100 },
    cursor_current := { row := 0, col := 2 },
    fill_defaults := { basic_cell with attr := { basic_cell.attr with back := 1 } } } }

/-- First cell of a two-column wide character. -/
def wideBase : VteCell := { c := [0x4E00], attr := { basic_cell.attr with columns := 2 } }

/-- Continuation cell of a two-column wide character. -/
def wideFrag : VteCell :=
  { c := [0x4E00], attr := { basic_cell.attr with columns := 2, fragment := true } }

/-- Terminal for the C2 scenario: a wide character occupying columns 0-1 and
the cursor on its continuation cell at column 1. -/
def c2Term : VteTerminal := { testTerminal with
  screen := { testScreen with
    row_data := {
      delta := 0,
      rows := [{ cells := [wideBase, wideFrag], soft_wrapped := false }],
      capacity := 100 },
    cursor_current := { row := 0, col := 1 } } }

/-- Terminal for the C9 scenario: the width table maps 0x4E00 to two columns
(its east-asian width); one empty row, cursor at the origin. -/
def c9Term : VteTerminal := { testTerminal with
  unichar_width := fun c => if c = 0x4E00 then 2 else 1,
  screen := { testScreen with
    row_data := { delta := 0, rows := [emptyRowData], capacity := 100 } } }

/-- Terminal for the C3 witness: four columns, three rows, cursor at the last
column of the top row. -/
def c3Term : VteTerminal := { testTerminal with
  column_count := 4,
  row_count := 3,
  screen := { testScreen with
    row_data := { delta := 0, rows := [emptyRowData, emptyRowData, emptyRowData],
                  capacity := 100 },
    cursor_current := { row := 0, col := 3 } } }

/-- The C3 terminal with the xn flag cleared. -/
def c3TermNoXn : VteTerminal := { c3Term with flag_xn := false }

/-- Terminal for the C4 witness: three visible rows, scroll region [0,1],
cursor on the region bottom row 1, the top visible row holding an A. -/
def c4Term : VteTerminal := { testTerminal with
  row_count := 3,
  screen := { testScreen with
    row_data := {
      delta := 0,
      rows := [{ cells := [{ basic_cell with c := [65] }], soft_wrapped := false },
               emptyRowData, emptyRowData],
      capacity := 100 },
    scrolling_restricted := true,
    scrolling_region_start := 0,
    scrolling_region_end := 1,
    cursor_current := { row := 1, col := 0 } } }

/-- Terminal for the C5 witness: four visible rows of two columns, scroll
region [1,2], cursor on the region bottom row 2, rows holding A, B, C, D. -/
def c5Term : VteTerminal := { testTerminal with
  row_count := 4,
  column_count := 2,
  screen := { testScreen with
    row_data := {
      delta := 0,
      rows := [{ cells := [{ basic_cell with c := [65] }], soft_wrapped := false },
               { cells := [{ basic_cell with c := [66] }], soft_wrapped := false },
               { cells := [{ basic_cell with c := [67] }], soft_wrapped := false },
               { cells := [{ basic_cell with c := [68] }], soft_wrapped := false }],
      capacity := 100 },
    scrolling_restricted := true,
    scrolling_region_start := 1,
    scrolling_region_end := 2,
    cursor_current := { row := 2, col := 0 } } }

/-! Generic list lemmas used throughout the development. -/

theorem get?_set_ne' {α : Type} (l : List α) (i j : Nat) (a : α) (h : i ≠ j) :
    (l.set i a).get? j = l.get? j := by
  induction l generalizing i j with
  | nil => rfl
  | cons x xs ih =>
    cases i with
    | zero => cases j with
      | zero => exact absurd rfl h
      | succ j2 => rfl
    | succ i2 => cases j with
      | zero => rfl
      | succ j2 => exact ih i2 j2 (fun hc => h (by omega))

theorem get?_set_self' {α : Type} (l : List α) (i : Nat) (a : α) (h : i < l.length) :
    (l.set i a).get? i = some a := by
  induction l generalizing i with
  | nil => simp at h
  | cons x xs ih =>
    cases i with
    | zero => rfl
    | succ i2 => exact ih i2 (by simpa using h)

theorem set_of_get? {α : Type} (l : List α) (i : Nat) (a : α) (h : l.get? i = some a) :
    l.set i a = l := by
  induction l generalizing i with
  | nil => rfl
  | cons x xs ih =>
    cases i with
    | zero => simp only [List.get?] at h; cases h; rfl
    | succ i2 =>
      simp only [List.get?] at h
      simp only [List.set]
      rw [ih i2 h]

theorem get?_append_left' {α : Type} (xs ys : List α) (k : Nat) (h : k < xs.length) :
    (xs ++ ys).get? k = xs.get? k := by
  induction xs generalizing k with
  | nil => simp at h
  | cons x xt ih =>
    cases k with
    | zero => rfl
    | succ k2 => exact ih k2 (by simpa using h)

theorem get?_append_offset {α : Type} (xs ys : List α) (k : Nat) :
    (xs ++ ys).get? (xs.length + k) = ys.get? k := by
  induction xs with
  | nil => simp
  | cons x xt ih => simpa [Nat.succ_add] using ih

theorem set_append_offset {α : Type} (xs ys : List α) (k : Nat) (a : α) :
    (xs ++ ys).set (xs.length + k) a = xs ++ ys.set k a := by
  induction xs with
  | nil => simp
  | cons x xt ih => simp [List.set, Nat.succ_add, ih]

theorem get?_replicate' {α : Type} (a : α) (n k : Nat) (h : k < n) :
    (List.replicate n a).get? k = some a := by
  induction n generalizing k with
  | zero => omega
  | succ n2 ih =>
    cases k with
    | zero => rfl
    | succ k2 => exact ih k2 (by omega)

theorem set_replicate_zero {α : Type} (a b : α) (w : Nat) (h : 0 < w) :
    (List.replicate w b).set 0 a = a :: List.replicate (w - 1) b := by
  cases w with
  | zero => omega
  | succ w2 => rfl

theorem take_of_length_le' {α : Type} (l : List α) (n : Nat) (h : l.length ≤ n) :
    l.take n = l := by
  induction l generalizing n with
  | nil => simp
  | cons x xt ih =>
    cases n with
    | zero => simp at h
    | succ n2 => simp [ih n2 (by simpa using h)]

theorem writeFragLoop_spec (cu : List Nat) (attrF : VteCellAttr) (pre suf : List VteCell)
    (q : VteCell) (n : Nat) :
    writeFragLoop cu attrF (pre ++ List.replicate n q ++ suf) pre.length n =
      pre ++ List.replicate n { c := cu, attr := attrF } ++ suf := by
  induction n generalizing pre with
  | zero => rfl
  | succ n2 ih =>
    unfold writeFragLoop
    have hset : ((pre ++ List.replicate (n2 + 1) q ++ suf).set pre.length
        { c := cu, attr := attrF }) =
        (pre ++ [({ c := cu, attr := attrF } : VteCell)]) ++ List.replicate n2 q ++ suf := by
      have h0 : pre.length = pre.length + 0 := rfl
      rw [List.append_assoc, h0, set_append_offset]
      simp [List.replicate_succ, List.set]
    rw [hset]
    have harg : pre.length + 1 = (pre ++ [({ c := cu, attr := attrF } : VteCell)]).length := by
      simp
    rw [harg, ih]
    simp [List.replicate_succ]

theorem insertPadLoop_spec (color : VteCell) (n : Nat) (pre suf : List VteCell) (sw : Bool) :
    insertPadLoop color pre.length n { cells := pre ++ suf, soft_wrapped := sw } =
      { cells := pre ++ List.replicate n color ++ suf, soft_wrapped := sw } := by
  induction n generalizing pre with
  | zero => simp [insertPadLoop]
  | succ n2 ih =>
    unfold insertPadLoop
    have hins : _vte_row_data_insert { cells := pre ++ suf, soft_wrapped := sw }
        pre.length color = { cells := (pre ++ [color]) ++ suf, soft_wrapped := sw } := by
      unfold _vte_row_data_insert
      congr 1
      induction pre with
      | nil => simp [listInsertAt]
      | cons x xt ih2 => simpa [listInsertAt] using ih2
    rw [hins]
    have harg : pre.length + 1 = (pre ++ [color]).length := by simp
    rw [harg, ih]
    simp [List.replicate_succ]

theorem backOverFragments_nonfragment (row : VteRowData) (n : Nat) (cl : VteCell)
    (hget : row.cells.get? n = some cl) (hfrag : cl.attr.fragment = false) :
    backOverFragments row n = n := by
  cases n with
  | zero => rfl
  | succ n2 =>
    unfold backOverFragments
    simp only [List.get?_eq_getElem?] at hget
    simp [hget, hfrag]

/-! Projection lemmas for the state transformers. -/

theorem ringModifyRow_delta (r : VteRing) (i : Nat) (f : VteRowData → VteRowData) :
    (ringModifyRow r i f).delta = r.delta := by
  unfold ringModifyRow ringSetRow
  cases r.rows.get? (i - r.delta) <;> rfl

theorem ringModifyRow_length (r : VteRing) (i : Nat) (f : VteRowData → VteRowData) :
    (ringModifyRow r i f).rows.length = r.rows.length := by
  unfold ringModifyRow ringSetRow
  cases r.rows.get? (i - r.delta) <;> simp

theorem terminalModifyRow_of_get (t : VteTerminal) (i : Nat) (row : VteRowData)
    (f : VteRowData → VteRowData) (h : terminalGetRow t i = some row) :
    terminalModifyRow t i f =
      terminalSetRing t (ringSetRow t.screen.row_data i (f row)) := by
  unfold terminalModifyRow ringModifyRow
  unfold terminalGetRow _vte_ring_index at h
  rw [h]

theorem terminalGetRow_setRing_set (t : VteTerminal) (i : Nat) (row : VteRowData)
    (hd : t.screen.row_data.delta ≤ i) (hr : i < _vte_ring_next t.screen.row_data) :
    terminalGetRow (terminalSetRing t (ringSetRow t.screen.row_data i row)) i = some row := by
  unfold terminalGetRow _vte_ring_index terminalSetRing ringSetRow
  apply get?_set_self'
  unfold _vte_ring_next at hr
  omega

theorem ensure_row_of_lt (t : VteTerminal)
    (hr : t.screen.cursor_current.row < _vte_ring_next t.screen.row_data) :
    _vte_terminal_ensure_row t = t := by
  unfold _vte_terminal_ensure_row
  rw [if_neg (by omega)]

theorem list_set_set' {α : Type} (l : List α) (n : Nat) (a b : α) :
    (l.set n a).set n b = l.set n b := by
  induction l generalizing n with
  | nil => rfl
  | cons x xs ih =>
    cases n with
    | zero => rfl
    | succ n2 => simp [List.set, ih]

theorem get?_append_ge {α : Type} (xs ys : List α) (k : Nat) (h : xs.length ≤ k) :
    (xs ++ ys).get? k = ys.get? (k - xs.length) := by
  conv_lhs => rw [show k = xs.length + (k - xs.length) from by omega]
  rw [get?_append_offset]

theorem set_append_ge {α : Type} (xs ys : List α) (k : Nat) (a : α) (h : xs.length ≤ k) :
    (xs ++ ys).set k a = xs ++ ys.set (k - xs.length) a := by
  conv_lhs => rw [show k = xs.length + (k - xs.length) from by omega]
  rw [set_append_offset]

theorem setRing_setRow_self (t : VteTerminal) (i : Nat) (row : VteRowData)
    (h : terminalGetRow t i = some row) :
    terminalSetRing t (ringSetRow t.screen.row_data i row) = t := by
  unfold terminalGetRow _vte_ring_index at h
  unfold terminalSetRing ringSetRow
  rw [set_of_get? _ _ _ h]

theorem terminalModifyRow_congr_id (t : VteTerminal) (i : Nat) (row : VteRowData)
    (f : VteRowData → VteRowData) (h : terminalGetRow t i = some row) (hf : f row = row) :
    terminalModifyRow t i f = t := by
  rw [terminalModifyRow_of_get t i row f h, hf]
  exact setRing_setRow_self t i row h

theorem cursor_setRing (t : VteTerminal) (r : VteRing) :
    (terminalSetRing t r).screen.cursor_current = t.screen.cursor_current := rfl

theorem next_setRing_setRow (t : VteTerminal) (i : Nat) (row : VteRowData) :
    _vte_ring_next (terminalSetRing t (ringSetRow t.screen.row_data i row)).screen.row_data =
      _vte_ring_next t.screen.row_data := by
  unfold _vte_ring_next terminalSetRing ringSetRow
  simp

theorem setRing_setRow_collapse (t : VteTerminal) (i : Nat) (a b : VteRowData) :
    terminalSetRing (terminalSetRing t (ringSetRow t.screen.row_data i a))
      (ringSetRow (terminalSetRing t (ringSetRow t.screen.row_data i a)).screen.row_data i b) =
    terminalSetRing t (ringSetRow t.screen.row_data i b) := by
  unfold terminalSetRing ringSetRow
  simp [list_set_set']

theorem insertCharMain_pad_overwrite (t : VteTerminal) (c w col r : Nat) (R : VteRowData)
    (hcol : t.screen.cursor_current.col = col)
    (hrow : t.screen.cursor_current.row = r)
    (hd : t.screen.row_data.delta ≤ r)
    (hr : r < _vte_ring_next t.screen.row_data)
    (hR : terminalGetRow t r = some R)
    (hL : R.cells.length ≤ col)
    (hL2 : R.cells.length < col ∨ col = 0)
    (hw : 0 < w)
    (hcw : col + w ≤ t.column_count) :
    insertCharMain t c w false =
      terminalSetCursorCol
        (terminalSetRing t (ringSetRow t.screen.row_data r
          { cells := (R.cells ++ List.replicate (col - R.cells.length) basic_cell) ++
              writtenCells t.screen.defaults c w,
            soft_wrapped := R.soft_wrapped }))
        (col + w) := by
  set bcell : VteCell :=
    { c := [c], attr := { t.screen.defaults.attr with columns := w } } with hbcell
  set fcell : VteCell :=
    { c := [c], attr := { { t.screen.defaults.attr with columns := w } with fragment := true } }
    with hfcell
  set X : List VteCell := R.cells ++ List.replicate (col - R.cells.length) basic_cell with hX
  have hXlen : X.length = col := by
    rw [hX]
    simp only [List.length_append, List.length_replicate]
    omega
  set R1 : VteRowData := { cells := X, soft_wrapped := R.soft_wrapped } with hR1
  have hR1len : R1.cells.length = col := hXlen
  set T1 : VteTerminal := terminalSetRing t (ringSetRow t.screen.row_data r R1) with hT1
  have h1 : vte_terminal_ensure_cursor t = T1 := by
    unfold vte_terminal_ensure_cursor
    rw [hrow, ensure_row_of_lt t (by rw [hrow]; exact hr)]
    rw [terminalModifyRow_of_get t r R _ hR, hcol]
    rfl
  have hT1get : terminalGetRow T1 r = some R1 :=
    terminalGetRow_setRing_set t r R1 hd hr
  have h2 : _vte_terminal_cleanup_tab_fragments_at_cursor T1 = T1 := by
    unfold _vte_terminal_cleanup_tab_fragments_at_cursor
    rw [show T1.screen.cursor_current.row = r from by rw [hT1, cursor_setRing, hrow]]
    rw [ensure_row_of_lt T1 (by rw [hT1, cursor_setRing, hrow, next_setRing_setRow]; exact hr)]
    apply terminalModifyRow_congr_id T1 r R1 _ hT1get
    have hnone : _vte_row_data_get R1 T1.screen.cursor_current.col = none := by
      unfold _vte_row_data_get
      apply List.get?_eq_none.2
      rw [hR1len]
      rw [show T1.screen.cursor_current.col = col from by rw [hT1, cursor_setRing, hcol]]
    rw [hnone]
  set R2 : VteRowData :=
    { cells := X ++ List.replicate w basic_cell, soft_wrapped := R.soft_wrapped } with hR2
  set T2 : VteTerminal := terminalSetRing t (ringSetRow t.screen.row_data r R2) with hT2
  have h3 : terminalModifyRow T1 r (insertCharPadCells T1.screen col w false) = T2 := by
    rw [terminalModifyRow_of_get T1 r R1 _ hT1get]
    have hpad : insertCharPadCells T1.screen col w false R1 = R2 := by
      unfold insertCharPadCells
      rw [if_neg (by simp)]
      unfold _vte_row_data_fill
      rw [hR1len]
      rw [show col + w - col = w from by omega]
    rw [hpad]
    exact setRing_setRow_collapse t r R1 R2
  have hT2get : terminalGetRow T2 r = some R2 :=
    terminalGetRow_setRing_set t r R2 hd hr
  have hR2len : R2.cells.length = col + w := by
    rw [hR2]
    simp only [List.length_append, List.length_replicate, hXlen]
  have h4 : insertCharBreakLeft col R2 = R2 := by
    unfold insertCharBreakLeft
    rcases hL2 with hlt | hzero
    · rw [if_pos (by omega : 0 < col)]
      have hget : R2.cells.get? (col - 1) = some basic_cell := by
        rw [hR2]
        simp only
        rw [get?_append_left' _ _ _ (by rw [hXlen]; omega)]
        rw [hX]
        rw [get?_append_ge _ _ _ (by omega)]
        exact get?_replicate' _ _ _ (by omega)
      have hback : backOverFragments R2 (col - 1) = col - 1 :=
        backOverFragments_nonfragment R2 (col - 1) basic_cell hget rfl
      rw [hback]
      simp only [rowModifyCell, hget]
      unfold rowSetCell
      have hcell : ({ basic_cell with
          attr := { basic_cell.attr with columns := col - (col - 1) } } : VteCell) = basic_cell := by
        rw [show col - (col - 1) = 1 from by omega]
        rfl
      rw [hcell, set_of_get? _ _ _ hget]
    · rw [if_neg (by omega)]
  have h5 : insertCharBreakRight (col + w) R2 = R2 := by
    unfold insertCharBreakRight
    rw [List.drop_eq_nil_of_le (by omega)]
    rw [take_of_length_le' _ _ (by omega)]
    show ({ cells := R2.cells ++ blankWideFragments [], soft_wrapped := R2.soft_wrapped } :
      VteRowData) = R2
    simp [blankWideFragments]
  have hgetcol : _vte_row_data_get R2 col = some basic_cell := by
    unfold _vte_row_data_get
    rw [hR2]
    simp only
    rw [get?_append_ge _ _ _ (by omega)]
    rw [hXlen]
    rw [Nat.sub_self]
    exact get?_replicate' _ _ _ hw
  have htail : ({ R2 with cells :=
      (writeFragLoop [c]
        { ({ t.screen.defaults.attr with columns := w } : VteCellAttr) with fragment := true }
        (R2.cells.set col
          { c := [c], attr := ({ t.screen.defaults.attr with columns := w } : VteCellAttr) })
        (col + 1) (w - 1)).take t.column_count } : VteRowData) =
      { cells := X ++ writtenCells t.screen.defaults c w,
        soft_wrapped := R.soft_wrapped } := by
    have hset : R2.cells.set col
        { c := [c], attr := ({ t.screen.defaults.attr with columns := w } : VteCellAttr) } =
        (X ++ [bcell]) ++ List.replicate (w - 1) basic_cell ++ [] := by
      rw [hR2]
      simp only
      rw [set_append_ge _ _ _ _ (by omega)]
      rw [hXlen, Nat.sub_self]
      rw [set_replicate_zero _ _ _ hw]
      rw [hbcell]
      simp
    rw [hset]
    rw [show col + 1 = (X ++ [bcell]).length from by simp [hXlen]]
    rw [writeFragLoop_spec]
    rw [take_of_length_le' _ _ (by simp [hXlen]; omega)]
    rw [hR2, hbcell]
    unfold writtenCells
    simp
  unfold insertCharMain
  simp only []
  rw [hcol, hrow, h1, h2, h3]
  rw [terminalModifyRow_congr_id T2 r R2 _ hT2get h4]
  rw [terminalModifyRow_congr_id T2 r R2 _ hT2get h5]
  rw [terminalModifyRow_of_get T2 r R2 _ hT2get]
  have hTdef : T2.screen.defaults = t.screen.defaults := rfl
  have hTul : T2.flag_ul = t.flag_ul := rfl
  have hTcc : T2.column_count = t.column_count := rfl
  rw [hTdef, hTul, hTcc]
  have h6 : insertCharWriteCell t.screen.defaults t.flag_ul t.column_count c w col R2 =
      { cells := X ++ writtenCells t.screen.defaults c w,
        soft_wrapped := R.soft_wrapped } := by
    unfold insertCharWriteCell
    simp only [hgetcol]
    by_cases hul : c = 95 ∧ t.flag_ul = true
    · rw [if_pos hul]
      simp only [basic_cell, ne_eq, not_true_eq_false, if_false, reduceIte]
      exact htail
    · rw [if_neg hul]
      exact htail
  rw [h6]
  rw [setRing_setRow_collapse t r R2 _]


/-! Claim C10: word classification of non-ASCII code points. -/

/-- Claim C10: a code point at or above 0x80 that is graphic, non-punctuation
and non-space is classified as a word character whatever the configured
word-character range table holds, and for non-ASCII code points the table can
never exclude a character that the empty-table fallback accepts. -/
theorem C10_is_word_char_nonascii (t : VteTerminal) (c : Nat)
    (hc : 0x80 ≤ c)
    (hg : t.props.isgraph c = true)
    (hp : t.props.ispunct c = false)
    (hs : t.props.isspace c = false) :
    vte_terminal_is_word_char t c = true ∧
    ∀ c2, 0x80 ≤ c2 →
      vte_terminal_is_word_char { t with word_chars := none } c2 = true →
      vte_terminal_is_word_char t c2 = true := by
  constructor
  · have hc0 : c ≠ 0 := by omega
    unfold vte_terminal_is_word_char
    simp [hg, hp, hs, hc, hc0]
  · intro c2 hc2 hw
    unfold vte_terminal_is_word_char at hw ⊢
    simp only [Bool.or_eq_true, Bool.and_eq_true] at hw
    rcases hw with hw | hw
    · exact absurd hw (by simp)
    · simp only [Bool.or_eq_true, Bool.and_eq_true]
      right
      refine ⟨⟨⟨⟨?_, hw.1.1.1.2⟩, hw.1.1.2⟩, hw.1.2⟩, hw.2⟩
      simp [hc2]

theorem C10_is_word_char_nonascii_witness :
    vte_terminal_is_word_char wordCharTerm 0x2013 = true ∧
    vte_terminal_is_word_char { wordCharTerm with word_chars := none } 0x2013 = true := by
  have h := C10_is_word_char_nonascii wordCharTerm 0x2013 (by decide) (by decide)
    (by decide) (by decide)
  exact ⟨h.1, h.2 0x2013 (by decide) (by decide) |>.symm ▸ (by decide)⟩

/-! Claim C6: word-class comparison. -/

/-- Claim C6 (amended): vte_same_class returns true exactly when both grid
positions hold populated cells whose base characters are word characters; in
particular it returns false — not true — when both cells hold non-word
characters (the source deliberately refuses to group non-word characters,
bug #25290). -/
theorem C6_same_class_characterization (t : VteTerminal) (acol arow bcol brow : Nat) :
    vte_same_class t acol arow bcol brow = true ↔
      (∃ pa, vte_screen_find_charcell t.screen acol arow = some pa ∧ pa.c ≠ [0] ∧
        vte_terminal_is_word_char t (_vte_unistr_get_base pa.c) = true) ∧
      (∃ pb, vte_screen_find_charcell t.screen bcol brow = some pb ∧ pb.c ≠ [0] ∧
        vte_terminal_is_word_char t (_vte_unistr_get_base pb.c) = true) := by
  unfold vte_same_class
  cases ha : vte_screen_find_charcell t.screen acol arow with
  | none => simp
  | some pa =>
    by_cases h0 : pa.c = [0]
    · simp [h0]
    · simp only [h0, if_pos, ne_eq, not_false_eq_true, if_true]
      by_cases hwa : vte_terminal_is_word_char t (_vte_unistr_get_base pa.c) = true
      · simp only [hwa, Bool.not_true, Bool.false_eq_true, if_false]
        cases hb : vte_screen_find_charcell t.screen bcol brow with
        | none => simp [h0, hwa]
        | some pb =>
          by_cases h0b : pb.c = [0]
          · simp [h0b, h0, hwa]
          · simp only [h0b, if_false]
            by_cases hwb : vte_terminal_is_word_char t (_vte_unistr_get_base pb.c) = true
            · simp [hwa, hwb, h0, h0b]
            · simp only [Bool.not_eq_true] at hwb
              simp [hwa, hwb, h0, h0b]
      · simp only [Bool.not_eq_true] at hwa
        simp [hwa, h0]

/-- Claim C6 as stated is false: at (0,0) and (1,0) both cells are populated
and both hold the non-word character full stop, yet vte_same_class returns
false, contradicting "returns true when both cells hold non-word
characters". -/
theorem C6_counterexample :
    vte_screen_find_charcell sameClassTerm.screen 0 0 = some { basic_cell with c := [0x2E] } ∧
    vte_screen_find_charcell sameClassTerm.screen 1 0 = some { basic_cell with c := [0x2E] } ∧
    vte_terminal_is_word_char sameClassTerm 0x2E = false ∧
    vte_same_class sameClassTerm 0 0 1 0 = false := by
  refine ⟨by decide, by decide, by decide, by decide⟩

/-! Claim C7: hole discipline of the match-regex table. -/

theorem matchAddScan_le_length (l : List MatchRegexEntry) : matchAddScan l ≤ l.length := by
  induction l with
  | nil => simp [matchAddScan]
  | cons e rest ih =>
    unfold matchAddScan
    by_cases h : e.tag = -1 <;> simp [h] <;> omega

theorem matchAddScan_before (l : List MatchRegexEntry) (j : Nat) (hj : j < matchAddScan l)
    (ej : MatchRegexEntry) (h : l.get? j = some ej) : ej.tag ≠ -1 := by
  induction l generalizing j with
  | nil => simp [matchAddScan] at hj
  | cons e rest ih =>
    unfold matchAddScan at hj
    by_cases he : e.tag = -1
    · simp [he] at hj
    · simp only [he, if_false] at hj
      cases j with
      | zero => simp only [List.get?] at h; cases h; exact he
      | succ j2 =>
        simp only [List.get?] at h
        exact ih j2 (by omega) h

theorem matchAddScan_at (l : List MatchRegexEntry) (h : matchAddScan l < l.length) :
    ∃ e, l.get? (matchAddScan l) = some e ∧ e.tag = -1 := by
  induction l with
  | nil => simp at h
  | cons e rest ih =>
    unfold matchAddScan at h ⊢
    by_cases he : e.tag = -1
    · exact ⟨e, by simp [he], he⟩
    · simp only [he, if_false] at h ⊢
      have h2 : matchAddScan rest < rest.length := by simpa using h
      obtain ⟨e2, hg, ht⟩ := ih h2
      exact ⟨e2, by simpa using hg, ht⟩

/-- Claim C7: vte_terminal_match_remove turns the addressed entry into a hole
in place — the table keeps its length, the entry's slot now carries tag -1 and
a released regex, and every other entry is untouched — and
vte_terminal_match_add_gregex returns the smallest index holding a hole,
reusing it, or appends when no hole exists; in both operations all other
entries are unchanged. -/
theorem C7_match_remove_add (t : VteTerminal) (n : Nat) (e : MatchRegexEntry)
    (hn : t.match_regexes.get? n = some e) (he : 0 ≤ e.tag) :
    ((vte_terminal_match_remove t (n : Int)).match_regexes.length =
        t.match_regexes.length ∧
      (vte_terminal_match_remove t (n : Int)).match_regexes.get? n =
        some (regex_match_clear e) ∧
      (regex_match_clear e).tag = -1 ∧
      (∀ j, j ≠ n → (vte_terminal_match_remove t (n : Int)).match_regexes.get? j =
        t.match_regexes.get? j)) ∧
    (∀ u : VteTerminal, ∀ rg fl : Nat,
      ((vte_terminal_match_add_gregex u rg fl).2 = (matchAddScan u.match_regexes : Int)) ∧
      (∀ j, j < matchAddScan u.match_regexes →
        ∀ ej, u.match_regexes.get? j = some ej → ej.tag ≠ -1) ∧
      (matchAddScan u.match_regexes < u.match_regexes.length →
        ∃ ej, u.match_regexes.get? (matchAddScan u.match_regexes) = some ej ∧ ej.tag = -1) ∧
      (matchAddScan u.match_regexes = u.match_regexes.length →
        (vte_terminal_match_add_gregex u rg fl).1.match_regexes.length =
          u.match_regexes.length + 1) ∧
      (∀ j, j ≠ matchAddScan u.match_regexes →
        (vte_terminal_match_add_gregex u rg fl).1.match_regexes.get? j =
          u.match_regexes.get? j)) := by
  have hlen : n < t.match_regexes.length := by
    by_contra hc
    rw [List.get?_eq_none.2 (by omega)] at hn
    exact Option.noConfusion hn
  have hcond : 0 ≤ (n : Int) ∧ (n : Int).toNat < t.match_regexes.length := by
    constructor
    · exact Int.ofNat_nonneg n
    · simpa using hlen
  have htn : (n : Int).toNat = n := by simp
  constructor
  · have hrem : vte_terminal_match_remove t (n : Int) =
        vte_terminal_match_hilite_clear
          { t with match_regexes :=
              t.match_regexes.set n (regex_match_clear e) } := by
      unfold vte_terminal_match_remove
      rw [if_pos hcond, htn, hn]
      have : ¬ e.tag < 0 := by omega
      simp [this]
    rw [hrem]
    refine ⟨by simp [vte_terminal_match_hilite_clear], ?_, rfl, ?_⟩
    · simpa [vte_terminal_match_hilite_clear] using
        get?_set_self' t.match_regexes n (regex_match_clear e) hlen
    · intro j hj
      simpa [vte_terminal_match_hilite_clear] using
        get?_set_ne' t.match_regexes n j (regex_match_clear e) (fun hc => hj hc.symm)
  · intro u rg fl
    refine ⟨?_, matchAddScan_before u.match_regexes, matchAddScan_at u.match_regexes, ?_, ?_⟩
    · unfold vte_terminal_match_add_gregex
      by_cases h : matchAddScan u.match_regexes < u.match_regexes.length <;> simp [h]
    · intro hfull
      unfold vte_terminal_match_add_gregex
      have : ¬ matchAddScan u.match_regexes < u.match_regexes.length := by omega
      simp [this]
    · intro j hj
      unfold vte_terminal_match_add_gregex
      by_cases h : matchAddScan u.match_regexes < u.match_regexes.length
      · simp only [h, if_pos]
        exact get?_set_ne' u.match_regexes (matchAddScan u.match_regexes) j _
          (fun hc => hj hc.symm)
      · simp only [h, if_false]
        have hge : u.match_regexes.length ≤ matchAddScan u.match_regexes := by omega
        have heq : matchAddScan u.match_regexes = u.match_regexes.length :=
          Nat.le_antisymm (matchAddScan_le_length _) hge
        rcases Nat.lt_or_ge j u.match_regexes.length with hlt | hge2
        · rw [List.get?_append hlt]
        · have hj2 : u.match_regexes.length < j := by omega
          rw [List.get?_eq_none.2 (by simpa using hj2), List.get?_eq_none.2 (by omega)]

theorem C7_match_remove_add_witness :
    (vte_terminal_match_remove regTerm (0 : Int)).match_regexes.get? 0 =
      some { regex := none, match_flags := 5, tag := -1 } ∧
    (vte_terminal_match_add_gregex (vte_terminal_match_remove regTerm (0 : Int)) 9 0).2 = 0 := by
  have h := C7_match_remove_add regTerm 0 { regex := some 7, match_flags := 5, tag := 0 }
    rfl (by decide)
  exact ⟨h.1.2.1, by decide⟩

/-! Claim C8: the last-match cache short-circuits the regex scan. -/

/-- Claim C8: when the queried position lies inside the cached range of the
previous successful match, vte_terminal_match_check returns the cached text
and tag and leaves the terminal — in particular the projection cache — fully
unchanged, whatever the internal scan would have computed (it is not
invoked). -/
theorem C8_match_check_cached
    (internal : VteTerminal → Int → Int → Option (List Nat) × Int × VteTerminal)
    (t : VteTerminal) (column row : Int) (s : List Nat)
    (hcache : t.match_str = some s)
    (hin : rowcol_inside_match t (row + (t.screen.scroll_delta : Int)) column = true) :
    vte_terminal_match_check internal t column row = (some s, t.match_tag, t) := by
  unfold vte_terminal_match_check
  simp only [hin, if_true, hcache]

theorem C8_match_check_cached_witness :
    vte_terminal_match_check (fun t2 _ _ => (none, -1, t2)) cachedMatchTerm 3 2 =
      (some [104, 105], 0, cachedMatchTerm) :=
  C8_match_check_cached (fun t2 _ _ => (none, -1, t2)) cachedMatchTerm 3 2 [104, 105]
    rfl (by decide)

/-- Composition of _vte_terminal_insert_char in overwrite mode when no wrap
fires: the status-line, charset-substitution, pre-wrap and post-wrap branches
all fall through and the write lands as computed by insertCharMain. -/
theorem insert_char_overwrite_nowrap (t : VteTerminal) (c w col r : Nat) (R : VteRowData)
    (hst : t.screen.status_line = false)
    (hac : t.screen.alternate_charset = false)
    (him : t.screen.insert_mode = false)
    (hwidth : t.unichar_width c = w)
    (hcol : t.screen.cursor_current.col = col)
    (hrow : t.screen.cursor_current.row = r)
    (hd : t.screen.row_data.delta ≤ r)
    (hr : r < _vte_ring_next t.screen.row_data)
    (hR : terminalGetRow t r = some R)
    (hL : R.cells.length ≤ col)
    (hL2 : R.cells.length < col ∨ col = 0)
    (hw : 0 < w)
    (hcw : col + w ≤ t.column_count)
    (hnowrap : t.column_count ≤ col + w → ¬(t.flag_am = true ∧ t.flag_xn = false)) :
    _vte_terminal_insert_char t c false false =
      ({ terminalSetCursorCol
          (terminalSetRing t (ringSetRow t.screen.row_data r
            { cells := (R.cells ++ List.replicate (col - R.cells.length) basic_cell) ++
                writtenCells t.screen.defaults c w,
              soft_wrapped := R.soft_wrapped }))
          (col + w) with text_inserted_flag := true }, false) := by
  have hpre : insertCharPreWrap t w = (t, false) := by
    unfold insertCharPreWrap
    rw [if_neg]
    rw [hcol]
    omega
  unfold _vte_terminal_insert_char
  rw [hst, hac, him]
  simp only [Bool.or_false, if_false, Bool.false_eq_true, reduceIte, hwidth, hpre]
  rw [if_neg (by omega)]
  rw [insertCharMain_pad_overwrite t c w col r R hcol hrow hd hr hR hL hL2 hw hcw]
  have hpost : insertCharPostWrap
      (terminalSetCursorCol
        (terminalSetRing t (ringSetRow t.screen.row_data r
          { cells := (R.cells ++ List.replicate (col - R.cells.length) basic_cell) ++
              writtenCells t.screen.defaults c w,
            soft_wrapped := R.soft_wrapped }))
        (col + w)) t.screen.cursor_current.row =
      terminalSetCursorCol
        (terminalSetRing t (ringSetRow t.screen.row_data r
          { cells := (R.cells ++ List.replicate (col - R.cells.length) basic_cell) ++
              writtenCells t.screen.defaults c w,
            soft_wrapped := R.soft_wrapped }))
        (col + w) := by
    unfold insertCharPostWrap
    by_cases hcc : t.column_count ≤ col + w
    · rw [if_pos (by exact hcc)]
      rw [if_neg]
      intro hcontra
      exact hnowrap hcc ⟨hcontra.1, by simpa using hcontra.2⟩
    · rw [if_neg (by exact hcc)]
  rw [hpost]

/-- Claim C1 (amended): in overwrite mode the target row is padded with
copies of the terminal-default blank cell basic_cell — not with the screen's
fill_defaults — out to cursor.col + w before the character is written, and in
insert mode w new cells carrying color_defaults are inserted at cursor.col
(the write then overwrites the first w of them). -/
theorem C1_padding (t : VteTerminal) (c w col r : Nat) (R : VteRowData)
    (hst : t.screen.status_line = false)
    (hac : t.screen.alternate_charset = false)
    (him : t.screen.insert_mode = false)
    (hwidth : t.unichar_width c = w)
    (hcol : t.screen.cursor_current.col = col)
    (hrow : t.screen.cursor_current.row = r)
    (hd : t.screen.row_data.delta ≤ r)
    (hr : r < _vte_ring_next t.screen.row_data)
    (hR : terminalGetRow t r = some R)
    (hL : R.cells.length ≤ col)
    (hL2 : R.cells.length < col ∨ col = 0)
    (hw : 0 < w)
    (hcw : col + w ≤ t.column_count)
    (hnowrap : t.column_count ≤ col + w → ¬(t.flag_am = true ∧ t.flag_xn = false)) :
    (terminalGetRow (_vte_terminal_insert_char t c false false).1 r =
       some { cells := (R.cells ++ List.replicate (col - R.cells.length) basic_cell) ++
                writtenCells t.screen.defaults c w,
              soft_wrapped := R.soft_wrapped }) ∧
    (∀ i, R.cells.length ≤ i → i < col →
       ((R.cells ++ List.replicate (col - R.cells.length) basic_cell) ++
         writtenCells t.screen.defaults c w).get? i = some basic_cell) ∧
    (∀ scr2 : VteScreen, ∀ pre suf : List VteCell, ∀ sw : Bool,
       insertCharPadCells scr2 pre.length w true { cells := pre ++ suf, soft_wrapped := sw } =
         { cells := pre ++ List.replicate w scr2.color_defaults ++ suf, soft_wrapped := sw }) := by
  refine ⟨?_, ?_, ?_⟩
  · rw [insert_char_overwrite_nowrap t c w col r R hst hac him hwidth hcol hrow hd hr hR hL hL2
      hw hcw hnowrap]
    exact terminalGetRow_setRing_set t r _ hd hr
  · intro i hiL hicol
    rw [get?_append_left' _ _ _ (by simp; omega)]
    rw [get?_append_ge _ _ _ (by omega)]
    exact get?_replicate' _ _ _ (by omega)
  · intro scr2 pre suf sw
    unfold insertCharPadCells
    rw [if_pos rfl]
    exact insertPadLoop_spec scr2.color_defaults w pre suf sw

theorem C1_padding_witness :
    terminalGetRow (_vte_terminal_insert_char c1Term 97 false false).1 0 =
      some { cells := (([] : List VteCell) ++ List.replicate (2 - 0) basic_cell) ++
               writtenCells c1Term.screen.defaults 97 1,
             soft_wrapped := false } := by
  have h := C1_padding c1Term 97 1 2 0 emptyRowData rfl rfl rfl rfl rfl rfl
    (by decide) (by decide) rfl (by decide) (by decide) (by decide) (by decide) (by decide)
  exact h.1

/-! Claims C1, C2, C9: concrete refutations of the claims as stated. -/

/-- Claim C1 as stated is false: in overwrite mode at a concrete state whose
fill_defaults carry background slot 1, inserting a character at column 2 pads
columns 0 and 1 with the basic (terminal default background 257) cell, not
with the screen's fill_defaults. -/
theorem C1_counterexample :
    c1Term.screen.insert_mode = false ∧
    c1Term.screen.fill_defaults.attr.back = 1 ∧
    terminalGetRow (_vte_terminal_insert_char c1Term 97 false false).1 0 =
      some { cells := [basic_cell, basic_cell, { basic_cell with c := [97] }],
             soft_wrapped := false } ∧
    basic_cell.attr.back = VTE_DEF_BG ∧
    basic_cell ≠ c1Term.screen.fill_defaults := by
  refine ⟨rfl, rfl, by decide, rfl, by decide⟩

/-- Claim C2 as stated is false: writing a narrow character onto the
continuation cell (column 1) of a wide character leaves the wide character's
first cell at column 0 holding its original character 0x4E00 with one column —
it is not converted to a blank cell with c = 0. -/
theorem C2_counterexample :
    terminalGetRow (_vte_terminal_insert_char c2Term 97 false false).1 0 =
      some { cells := [{ c := [0x4E00], attr := { basic_cell.attr with columns := 1 } },
                       { basic_cell with c := [97] }],
             soft_wrapped := false } ∧
    ([0x4E00] : List Nat) ≠ [0] := by
  refine ⟨by decide, by decide⟩

/-- Claim C9 as stated is false for a double-width code point: inserting
0x4E00 (width 2), backing up one column and inserting it again leaves a grid
different from a single insertion — the first copy survives truncated to one
column next to the freshly written wide character. -/
theorem C9_counterexample :
    c9Term.unichar_width 0x4E00 = 2 ∧
    (_vte_terminal_insert_char
        (backspaceCursor (_vte_terminal_insert_char c9Term 0x4E00 false false).1)
        0x4E00 false false).1.screen.row_data ≠
      (_vte_terminal_insert_char c9Term 0x4E00 false false).1.screen.row_data := by
  refine ⟨rfl, by decide⟩

end Vte

namespace Vte

theorem take_append_self {α : Type} (xs ys : List α) : (xs ++ ys).take xs.length = xs := by
  induction xs with
  | nil => rfl
  | cons x xt ih => simp [List.take, ih]

theorem drop_append_self {α : Type} (xs ys : List α) : (xs ++ ys).drop xs.length = ys := by
  induction xs with
  | nil => rfl
  | cons x xt ih => simpa using ih

theorem blankWideFragments_spec (frags rest : List VteCell)
    (hf : ∀ cl ∈ frags, cl.attr.fragment = true)
    (hrest : ∀ cl0, rest.head? = some cl0 → cl0.attr.fragment = false) :
    blankWideFragments (frags ++ rest) =
      frags.map (fun cl => { cl with c := [0], attr := { cl.attr with columns := 1 } }) ++ rest := by
  induction frags with
  | nil =>
    simp only [List.nil_append, List.map_nil]
    cases rest with
    | nil => rfl
    | cons cl0 rs =>
      unfold blankWideFragments
      rw [if_neg (by simp [hrest cl0 rfl])]
  | cons cl ft ih =>
    rw [List.cons_append]
    unfold blankWideFragments
    rw [if_pos (hf cl (by simp))]
    simp only [List.cons_append, List.map_cons]
    rw [ih (fun x hx => hf x (by simp [hx]))]

theorem backOverFragments_spec (row : VteRowData) (p k : Nat)
    (hfr : ∀ j, p < j → j ≤ p + k →
      (row.cells.get? j).map (fun cl => cl.attr.fragment) = some true)
    (hb : (row.cells.get? p).map (fun cl => cl.attr.fragment) = some false) :
    backOverFragments row (p + k) = p := by
  induction k with
  | zero =>
    cases hcell : row.cells.get? p with
    | none => rw [hcell] at hb; simp at hb
    | some cl =>
      rw [hcell] at hb
      simp at hb
      exact backOverFragments_nonfragment row p cl hcell hb
  | succ k2 ih =>
    have hj : (row.cells.get? (p + k2 + 1)).map (fun cl => cl.attr.fragment) = some true :=
      hfr (p + k2 + 1) (by omega) (by omega)
    cases hcell : row.cells.get? (p + k2 + 1) with
    | none => rw [hcell] at hj; simp at hj
    | some cl =>
      rw [hcell] at hj
      simp at hj
      rw [show p + (k2 + 1) = (p + k2) + 1 from by omega]
      unfold backOverFragments
      simp only [hcell]
      rw [if_pos hj]
      exact ih (fun j h1 h2 => hfr j h1 (by omega))

/-- Claim C2 (amended): when a write partially overwrites a wide character,
the continuation cells at and after the write position are each turned into a
one-column cell holding the zero character (the fragment bit itself is kept),
while a wide character that begins before the write position keeps its
character in its first cell and only has its column count truncated to the
cells remaining before the write — the first cell is not blanked to c = 0 as
the claim states. -/
theorem C2_break (keep frags rest pre : List VteCell) (base : VteCell)
    (frags2 rest2 : List VteCell) (sw sw2 : Bool)
    (hf : ∀ cl ∈ frags, cl.attr.fragment = true)
    (hrest : ∀ cl0, rest.head? = some cl0 → cl0.attr.fragment = false)
    (hbase : base.attr.fragment = false)
    (hf2 : ∀ cl ∈ frags2, cl.attr.fragment = true) :
    (insertCharBreakRight keep.length { cells := keep ++ (frags ++ rest), soft_wrapped := sw } =
      { cells := keep ++
          (frags.map (fun cl => { cl with c := [0], attr := { cl.attr with columns := 1 } }) ++
            rest),
        soft_wrapped := sw }) ∧
    (insertCharBreakLeft (pre.length + 1 + frags2.length)
        { cells := pre ++ base :: (frags2 ++ rest2), soft_wrapped := sw2 } =
      { cells := pre ++
          { base with attr := { base.attr with columns := 1 + frags2.length } } ::
            (frags2 ++ rest2),
        soft_wrapped := sw2 }) := by
  constructor
  · unfold insertCharBreakRight
    simp only
    rw [take_append_self, drop_append_self]
    rw [blankWideFragments_spec frags rest hf hrest]
  · unfold insertCharBreakLeft
    rw [if_pos (by omega)]
    set row : VteRowData := { cells := pre ++ base :: (frags2 ++ rest2), soft_wrapped := sw2 }
      with hrowdef
    have hgetp : row.cells.get? pre.length = some base := by
      rw [hrowdef]
      simp only
      rw [show pre.length = pre.length + 0 from rfl, get?_append_offset]
      rfl
    have hback : backOverFragments row (pre.length + 1 + frags2.length - 1) = pre.length := by
      rw [show pre.length + 1 + frags2.length - 1 = pre.length + frags2.length from by omega]
      apply backOverFragments_spec row pre.length frags2.length
      · intro j h1 h2
        rw [hrowdef]
        simp only
        rw [get?_append_ge _ _ _ (by omega)]
        rw [show j - pre.length = (j - pre.length - 1) + 1 from by omega]
        simp only [List.get?]
        rw [get?_append_left' _ _ _ (by omega)]
        cases hc2 : frags2.get? (j - pre.length - 1) with
        | none =>
          exfalso
          have := List.get?_eq_none.1 hc2
          omega
        | some cl =>
          simp [hf2 cl (List.get?_mem hc2)]
      · rw [hgetp]
        simp [hbase]
    rw [hback]
    unfold rowModifyCell
    simp only [hgetp]
    unfold rowSetCell
    rw [hrowdef]
    simp only
    rw [show pre.length + 1 + frags2.length - pre.length = 1 + frags2.length from by omega]
    rw [show pre.length = pre.length + 0 from rfl, set_append_offset]
    rfl

end Vte

namespace Vte

theorem listInsertAt_length {α : Type} (l : List α) (n : Nat) (a : α) (h : n ≤ l.length) :
    (listInsertAt l n a).length = l.length + 1 := by
  induction l generalizing n with
  | nil =>
    cases n with
    | zero => rfl
    | succ n2 => simp at h
  | cons x xs ih =>
    cases n with
    | zero => rfl
    | succ n2 => simp [listInsertAt, ih n2 (by simpa using h)]

theorem get?_listInsertAt_self {α : Type} (l : List α) (n : Nat) (a : α) (h : n ≤ l.length) :
    (listInsertAt l n a).get? n = some a := by
  induction l generalizing n with
  | nil =>
    cases n with
    | zero => rfl
    | succ n2 => simp at h
  | cons x xs ih =>
    cases n with
    | zero => rfl
    | succ n2 => simpa [listInsertAt] using ih n2 (by simpa using h)

theorem get?_listInsertAt_lt {α : Type} (l : List α) (n k : Nat) (a : α) (h : k < n) :
    (listInsertAt l n a).get? k = l.get? k := by
  induction l generalizing n k with
  | nil =>
    cases n with
    | zero => omega
    | succ n2 => rfl
  | cons x xs ih =>
    cases n with
    | zero => omega
    | succ n2 =>
      cases k with
      | zero => rfl
      | succ k2 => simpa [listInsertAt] using ih n2 k2 (by omega)

theorem get?_listInsertAt_gt {α : Type} (l : List α) (n k : Nat) (a : α) (h : n < k) :
    (listInsertAt l n a).get? k = l.get? (k - 1) := by
  induction l generalizing n k with
  | nil =>
    cases n with
    | zero =>
      cases k with
      | zero => omega
      | succ k2 => simp [listInsertAt, List.get?]
    | succ n2 => rfl
  | cons x xs ih =>
    cases n with
    | zero =>
      cases k with
      | zero => omega
      | succ k2 => simp [listInsertAt, List.get?]
    | succ n2 =>
      cases k with
      | zero => omega
      | succ k2 =>
        simp only [listInsertAt, List.get?]
        rw [ih n2 k2 (by omega)]
        cases k2 with
        | zero => omega
        | succ k3 => simp [List.get?]

theorem listEraseAt_length {α : Type} (l : List α) (n : Nat) (h : n < l.length) :
    (listEraseAt l n).length = l.length - 1 := by
  induction l generalizing n with
  | nil => simp at h
  | cons x xs ih =>
    cases n with
    | zero => simp [listEraseAt]
    | succ n2 =>
      have h2 := ih n2 (by simpa using h)
      have h3 : n2 < xs.length := by simpa using h
      simp only [listEraseAt, List.length_cons, h2]
      omega

theorem get?_listEraseAt_lt {α : Type} (l : List α) (n k : Nat) (h : k < n) :
    (listEraseAt l n).get? k = l.get? k := by
  induction l generalizing n k with
  | nil => rfl
  | cons x xs ih =>
    cases n with
    | zero => omega
    | succ n2 =>
      cases k with
      | zero => rfl
      | succ k2 => simpa [listEraseAt] using ih n2 k2 (by omega)

theorem get?_listEraseAt_ge {α : Type} (l : List α) (n k : Nat) (h : n ≤ k) :
    (listEraseAt l n).get? k = l.get? (k + 1) := by
  induction l generalizing n k with
  | nil => rfl
  | cons x xs ih =>
    cases n with
    | zero => simp [listEraseAt, List.get?]
    | succ n2 =>
      cases k with
      | zero => omega
      | succ k2 => simpa [listEraseAt] using ih n2 k2 (by omega)

end Vte

namespace Vte

theorem ring_insert_no_evict (r : VteRing) (pos : Nat)
    (hle : pos - r.delta ≤ r.rows.length) (hcap : r.rows.length < r.capacity) :
    _vte_ring_insert r pos =
      { delta := r.delta, rows := listInsertAt r.rows (pos - r.delta) emptyRowData,
        capacity := r.capacity } := by
  unfold _vte_ring_insert
  rw [if_neg (by rw [listInsertAt_length _ _ _ hle]; omega)]

theorem buffer_ring_insert_le_next (t : VteTerminal) (pos : Nat)
    (hle : pos ≤ _vte_ring_next t.screen.row_data) :
    _vte_buffer_ring_insert t pos false =
      terminalSetRing t (_vte_ring_insert t.screen.row_data pos) := by
  unfold _vte_buffer_ring_insert
  rw [show pos - _vte_ring_next t.screen.row_data = 0 from by omega]
  simp only [ringAppendFillN]
  rw [if_neg (by simp)]

theorem adjust_of_bounds (t : VteTerminal)
    (h1 : _vte_ring_delta t.screen.row_data ≤ t.screen.insert_delta)
    (h2 : t.screen.insert_delta ≤ t.screen.cursor_current.row)
    (h3 : t.screen.scroll_delta ≤ t.screen.insert_delta) :
    _vte_terminal_adjust_adjustments t = t := by
  unfold _vte_terminal_adjust_adjustments
  simp only []
  rw [show max t.screen.insert_delta (_vte_ring_delta t.screen.row_data) =
        t.screen.insert_delta from by omega]
  rw [show max t.screen.cursor_current.row t.screen.insert_delta =
        t.screen.cursor_current.row from by omega]
  rw [if_neg (show ¬ t.screen.insert_delta < t.screen.scroll_delta from by omega)]

/-- Claim C4: with scrolling restricted, the region starting at visible row
0 and the cursor on the region's bottom line, the cursor-down primitive bumps
insert_delta, scroll_delta and cursor.row by one each and inserts a fresh row
at the new cursor position; the ring's delta is unchanged and every earlier
row — in particular the previous top visible row — is still retained. -/
theorem C4_linefeed_scrollback (t : VteTerminal)
    (hres : t.screen.scrolling_restricted = true)
    (hstart : t.screen.scrolling_region_start = 0)
    (hcur : t.screen.cursor_current.row =
      t.screen.insert_delta + t.screen.scrolling_region_end)
    (hrow : t.screen.cursor_current.row < _vte_ring_next t.screen.row_data)
    (hdel : _vte_ring_delta t.screen.row_data ≤ t.screen.insert_delta)
    (hscroll : t.screen.scroll_delta ≤ t.screen.insert_delta)
    (hcap : _vte_ring_next t.screen.row_data - _vte_ring_delta t.screen.row_data <
      t.screen.row_data.capacity)
    (hfill : t.screen.fill_defaults.attr.back = VTE_DEF_BG) :
    (_vte_terminal_cursor_down t).screen.insert_delta = t.screen.insert_delta + 1 ∧
    (_vte_terminal_cursor_down t).screen.scroll_delta = t.screen.scroll_delta + 1 ∧
    (_vte_terminal_cursor_down t).screen.cursor_current.row =
      t.screen.cursor_current.row + 1 ∧
    _vte_ring_delta (_vte_terminal_cursor_down t).screen.row_data =
      _vte_ring_delta t.screen.row_data ∧
    _vte_ring_next (_vte_terminal_cursor_down t).screen.row_data =
      _vte_ring_next t.screen.row_data + 1 ∧
    terminalGetRow (_vte_terminal_cursor_down t) (t.screen.cursor_current.row + 1) =
      some emptyRowData ∧
    (∀ i, i ≤ t.screen.cursor_current.row →
      terminalGetRow (_vte_terminal_cursor_down t) i = terminalGetRow t i) := by
  have hdel' : t.screen.row_data.delta ≤ t.screen.insert_delta := hdel
  have hrow' : t.screen.cursor_current.row <
      t.screen.row_data.delta + t.screen.row_data.rows.length := hrow
  have hposle : t.screen.cursor_current.row + 1 - t.screen.row_data.delta ≤
      t.screen.row_data.rows.length := by omega
  have hcd : _vte_terminal_cursor_down t =
      terminalSetRing
        { t with screen := { t.screen with
            cursor_current := { row := t.screen.cursor_current.row + 1,
                                col := t.screen.cursor_current.col },
            insert_delta := t.screen.insert_delta + 1,
            scroll_delta := t.screen.scroll_delta + 1,
            scrolling_restricted := true,
            scrolling_region_start := 0 } }
        { delta := t.screen.row_data.delta,
          rows := listInsertAt t.screen.row_data.rows
            (t.screen.cursor_current.row + 1 - t.screen.row_data.delta) emptyRowData,
          capacity := t.screen.row_data.capacity } := by
    unfold _vte_terminal_cursor_down
    simp only [hfill, ne_eq, not_true_eq_false, if_false, reduceIte]
    simp only [hres, reduceIte]
    rw [if_pos hcur]
    simp only [hstart, Nat.add_zero, eq_self_iff_true, if_true, reduceIte]
    set t1b : VteTerminal := { t with screen := { t.screen with
        cursor_current := { row := t.screen.cursor_current.row + 1,
                            col := t.screen.cursor_current.col },
        insert_delta := t.screen.insert_delta + 1,
        scroll_delta := t.screen.scroll_delta + 1,
        scrolling_restricted := true,
        scrolling_region_start := 0 } } with ht1b
    have hnext1b : _vte_ring_next t1b.screen.row_data = _vte_ring_next t.screen.row_data := rfl
    have hE : _vte_terminal_adjust_adjustments
        (_vte_buffer_ring_insert t1b (t.screen.cursor_current.row + 1) false) =
        terminalSetRing t1b
          { delta := t.screen.row_data.delta,
            rows := listInsertAt t.screen.row_data.rows
              (t.screen.cursor_current.row + 1 - t.screen.row_data.delta) emptyRowData,
            capacity := t.screen.row_data.capacity } := by
      rw [buffer_ring_insert_le_next t1b _ (by rw [hnext1b]; omega)]
      rw [show _vte_ring_insert t1b.screen.row_data (t.screen.cursor_current.row + 1) =
          _vte_ring_insert t.screen.row_data (t.screen.cursor_current.row + 1) from rfl]
      rw [ring_insert_no_evict t.screen.row_data _ hposle
        (by unfold _vte_ring_next _vte_ring_delta at hcap; omega)]
      apply adjust_of_bounds
      · show t.screen.row_data.delta ≤ t.screen.insert_delta + 1
        omega
      · show t.screen.insert_delta + 1 ≤ t.screen.cursor_current.row + 1
        omega
      · show t.screen.scroll_delta + 1 ≤ t.screen.insert_delta + 1
        omega
    rw [hE]
    rw [if_neg (by simp [terminalSetRing, ht1b, hfill])]
  rw [hcd]
  have hget : terminalGetRow
      (terminalSetRing
        { t with screen := { t.screen with
            cursor_current := { row := t.screen.cursor_current.row + 1,
                                col := t.screen.cursor_current.col },
            insert_delta := t.screen.insert_delta + 1,
            scroll_delta := t.screen.scroll_delta + 1,
            scrolling_restricted := true,
            scrolling_region_start := 0 } }
        { delta := t.screen.row_data.delta,
          rows := listInsertAt t.screen.row_data.rows
            (t.screen.cursor_current.row + 1 - t.screen.row_data.delta) emptyRowData,
          capacity := t.screen.row_data.capacity })
      (t.screen.cursor_current.row + 1) = some emptyRowData := by
    unfold terminalGetRow _vte_ring_index terminalSetRing
    simp only
    exact get?_listInsertAt_self _ _ _ hposle
  refine ⟨rfl, rfl, rfl, rfl, ?_, hget, ?_⟩
  · unfold _vte_ring_next terminalSetRing
    simp only
    rw [listInsertAt_length _ _ _ hposle]
    unfold _vte_ring_next at hrow
    omega
  · intro i hi
    unfold terminalGetRow _vte_ring_index terminalSetRing
    simp only
    rcases Nat.lt_or_ge i t.screen.row_data.delta with hid | hid
    · rw [get?_listInsertAt_lt _ _ _ _ (by omega)]
    · rw [get?_listInsertAt_lt _ _ _ _ (by omega)]

end Vte

namespace Vte

theorem buffer_ring_insert_fill (t : VteTerminal) (pos : Nat)
    (hle : pos ≤ _vte_ring_next t.screen.row_data) :
    _vte_buffer_ring_insert t pos true =
      terminalModifyRow (terminalSetRing t (_vte_ring_insert t.screen.row_data pos)) pos
        (fun row => _vte_row_data_fill row t.screen.fill_defaults t.column_count) := by
  unfold _vte_buffer_ring_insert
  rw [show pos - _vte_ring_next t.screen.row_data = 0 from by omega]
  simp only [ringAppendFillN]
  rw [if_pos trivial]
  rfl

/-- Claim C5: with scrolling restricted to a region that does not start at
visible row 0 and the cursor on the region's bottom line, the cursor-down
primitive removes the row at the top of the region and inserts a fresh filled
row at the region bottom; the ring's delta and next — hence its size — are
unchanged, rows outside the region are untouched, and the rows inside the
region shift up by one. -/
theorem C5_region_linefeed (t : VteTerminal)
    (hres : t.screen.scrolling_restricted = true)
    (hstart1 : 1 ≤ t.screen.scrolling_region_start)
    (hregle : t.screen.scrolling_region_start ≤ t.screen.scrolling_region_end)
    (hcur : t.screen.cursor_current.row =
      t.screen.insert_delta + t.screen.scrolling_region_end)
    (hdel : _vte_ring_delta t.screen.row_data ≤ t.screen.insert_delta)
    (hend : t.screen.insert_delta + t.screen.scrolling_region_end <
      _vte_ring_next t.screen.row_data)
    (hcap : _vte_ring_next t.screen.row_data - _vte_ring_delta t.screen.row_data ≤
      t.screen.row_data.capacity)
    (hfill : t.screen.fill_defaults.attr.back = VTE_DEF_BG) :
    _vte_ring_delta (_vte_terminal_cursor_down t).screen.row_data =
      _vte_ring_delta t.screen.row_data ∧
    _vte_ring_next (_vte_terminal_cursor_down t).screen.row_data =
      _vte_ring_next t.screen.row_data ∧
    (_vte_terminal_cursor_down t).screen.cursor_current = t.screen.cursor_current ∧
    (_vte_terminal_cursor_down t).screen.insert_delta = t.screen.insert_delta ∧
    (_vte_terminal_cursor_down t).screen.scroll_delta = t.screen.scroll_delta ∧
    terminalGetRow (_vte_terminal_cursor_down t)
        (t.screen.insert_delta + t.screen.scrolling_region_end) =
      some { cells := List.replicate t.column_count t.screen.fill_defaults,
             soft_wrapped := false } ∧
    (∀ i, _vte_ring_delta t.screen.row_data ≤ i →
      i < t.screen.insert_delta + t.screen.scrolling_region_start →
      terminalGetRow (_vte_terminal_cursor_down t) i = terminalGetRow t i) ∧
    (∀ i, t.screen.insert_delta + t.screen.scrolling_region_end < i →
      i < _vte_ring_next t.screen.row_data →
      terminalGetRow (_vte_terminal_cursor_down t) i = terminalGetRow t i) ∧
    (∀ i, t.screen.insert_delta + t.screen.scrolling_region_start ≤ i →
      i < t.screen.insert_delta + t.screen.scrolling_region_end →
      terminalGetRow (_vte_terminal_cursor_down t) i = terminalGetRow t (i + 1)) := by
  have hrow' : t.screen.insert_delta + t.screen.scrolling_region_end <
      t.screen.row_data.delta + t.screen.row_data.rows.length := hend
  have hdel' : t.screen.row_data.delta ≤ t.screen.insert_delta := hdel
  have hstartle : t.screen.insert_delta + t.screen.scrolling_region_start -
      t.screen.row_data.delta < t.screen.row_data.rows.length := by omega
  have hcap' : t.screen.row_data.rows.length ≤ t.screen.row_data.capacity := by
    unfold _vte_ring_next _vte_ring_delta at hcap
    omega
  set dlt := t.screen.row_data.delta with hdlt
  set startpos := t.screen.insert_delta + t.screen.scrolling_region_start with hstartpos
  set endpos := t.screen.insert_delta + t.screen.scrolling_region_end with hendpos
  set filledRow : VteRowData :=
    { cells := List.replicate t.column_count t.screen.fill_defaults,
      soft_wrapped := false } with hfilledRow
  set ringrem : VteRing :=
    { delta := dlt,
      rows := listEraseAt t.screen.row_data.rows (startpos - dlt),
      capacity := t.screen.row_data.capacity } with hringrem
  set ringins : VteRing :=
    { delta := dlt,
      rows := listInsertAt (listEraseAt t.screen.row_data.rows (startpos - dlt))
        (endpos - dlt) emptyRowData,
      capacity := t.screen.row_data.capacity } with hringins
  set ringfin : VteRing :=
    { delta := dlt,
      rows := (listInsertAt (listEraseAt t.screen.row_data.rows (startpos - dlt))
        (endpos - dlt) emptyRowData).set (endpos - dlt) filledRow,
      capacity := t.screen.row_data.capacity } with hringfin
  have hlenrem : (listEraseAt t.screen.row_data.rows (startpos - dlt)).length =
      t.screen.row_data.rows.length - 1 :=
    listEraseAt_length _ _ (by omega)
  have hleni : (listInsertAt (listEraseAt t.screen.row_data.rows (startpos - dlt))
      (endpos - dlt) emptyRowData).length = t.screen.row_data.rows.length := by
    rw [listInsertAt_length _ _ _ (by simp only [hlenrem]; omega), hlenrem]
    omega
  have hcd : _vte_terminal_cursor_down t = terminalSetRing t ringfin := by
    unfold _vte_terminal_cursor_down
    simp only [hfill, ne_eq, not_true_eq_false, if_false, reduceIte]
    simp only [hres, reduceIte]
    rw [if_pos hcur]
    rw [if_neg (show ¬ (t.screen.insert_delta + t.screen.scrolling_region_start =
      t.screen.insert_delta) from by omega)]
    have hrem : _vte_buffer_ring_remove t startpos = terminalSetRing t ringrem := by
      unfold _vte_buffer_ring_remove _vte_ring_remove
      rfl
    rw [hrem]
    set trem : VteTerminal := terminalSetRing t ringrem with htrem
    have hnextrem : _vte_ring_next trem.screen.row_data =
        dlt + (t.screen.row_data.rows.length - 1) := by
      unfold _vte_ring_next
      rw [show trem.screen.row_data = ringrem from rfl, hringrem]
      simp only [hlenrem]
    have hins : _vte_buffer_ring_insert trem endpos true =
        terminalModifyRow (terminalSetRing trem (_vte_ring_insert trem.screen.row_data endpos))
          endpos
          (fun row => _vte_row_data_fill row trem.screen.fill_defaults trem.column_count) :=
      buffer_ring_insert_fill trem endpos (by rw [hnextrem]; omega)
    rw [hins]
    have hinsring : _vte_ring_insert trem.screen.row_data endpos = ringins := by
      rw [show trem.screen.row_data = ringrem from rfl, hringrem]
      rw [ring_insert_no_evict _ _ (by simp only [hlenrem]; omega)
        (by simp only [hlenrem]; omega)]
    rw [hinsring]
    have hgetend : terminalGetRow (terminalSetRing trem ringins) endpos =
        some emptyRowData := by
      unfold terminalGetRow _vte_ring_index terminalSetRing
      rw [hringins]
      simp only
      exact get?_listInsertAt_self _ _ _ (by simp only [hlenrem]; omega)
    rw [terminalModifyRow_of_get _ _ _ _ hgetend]
    have hfillrow : _vte_row_data_fill emptyRowData trem.screen.fill_defaults
        trem.column_count = filledRow := by
      unfold _vte_row_data_fill emptyRowData
      rw [hfilledRow]
      rw [show trem.screen.fill_defaults = t.screen.fill_defaults from rfl]
      rw [show trem.column_count = t.column_count from rfl]
      simp
    rw [hfillrow]
    rw [if_neg (by simp [htrem, terminalSetRing, hfill])]
    rw [htrem]
    rfl
  rw [hcd]
  refine ⟨rfl, ?_, rfl, rfl, rfl, ?_, ?_, ?_, ?_⟩
  · unfold _vte_ring_next terminalSetRing
    rw [hringfin]
    simp only [List.length_set, hleni]
  · unfold terminalGetRow _vte_ring_index terminalSetRing
    rw [hringfin]
    simp only
    apply get?_set_self'
    rw [hleni]
    omega
  · intro i h1 h2
    unfold terminalGetRow _vte_ring_index terminalSetRing
    rw [hringfin]
    simp only
    rw [get?_set_ne' _ _ _ _ (by omega)]
    rw [get?_listInsertAt_lt _ _ _ _ (by omega)]
    rw [get?_listEraseAt_lt _ _ _ (by omega)]
  · intro i h1 h2
    unfold terminalGetRow _vte_ring_index terminalSetRing
    rw [hringfin]
    simp only
    rw [get?_set_ne' _ _ _ _ (by omega)]
    rw [get?_listInsertAt_gt _ _ _ _ (by omega)]
    rw [get?_listEraseAt_ge _ _ _ (by omega)]
    rw [show i - dlt - 1 + 1 = i - dlt from by omega]
  · intro i h1 h2
    unfold terminalGetRow _vte_ring_index terminalSetRing
    rw [hringfin]
    simp only
    rw [get?_set_ne' _ _ _ _ (by omega)]
    rw [get?_listInsertAt_lt _ _ _ _ (by omega)]
    rw [get?_listEraseAt_ge _ _ _ (by omega)]
    rw [show i - dlt + 1 = i + 1 - dlt from by omega]

end Vte

namespace Vte

theorem cursorRow_setCursorCol (t : VteTerminal) (c : Nat) :
    (terminalSetCursorCol t c).screen.cursor_current.row = t.screen.cursor_current.row := rfl

theorem cursorCol_setCursorCol (t : VteTerminal) (c : Nat) :
    (terminalSetCursorCol t c).screen.cursor_current.col = c := rfl

theorem terminalGetRow_setRing_set_ne (t : VteTerminal) (i j : Nat) (row : VteRowData)
    (hne : j - t.screen.row_data.delta ≠ i - t.screen.row_data.delta) :
    terminalGetRow (terminalSetRing t (ringSetRow t.screen.row_data i row)) j =
      terminalGetRow t j := by
  unfold terminalGetRow _vte_ring_index terminalSetRing ringSetRow
  exact get?_set_ne' _ _ _ _ (fun h => hne h.symm)

theorem cursor_down_unrestricted_notend (t : VteTerminal) (r : Nat)
    (hrow : t.screen.cursor_current.row = r)
    (hres : t.screen.scrolling_restricted = false)
    (hne : r ≠ t.screen.insert_delta + t.row_count - 1) :
    _vte_terminal_cursor_down t = terminalSetCursorRow t (r + 1) := by
  unfold _vte_terminal_cursor_down
  simp only [hres, Bool.false_eq_true, if_false, reduceIte]
  rw [hrow]
  rw [if_neg hne]

theorem insertCharPostWrap_nowrap (t : VteTerminal) (ri : Nat)
    (h : ¬ t.column_count ≤ t.screen.cursor_current.col) :
    insertCharPostWrap t ri = t := by
  unfold insertCharPostWrap
  rw [if_neg h]

theorem insertCharPostWrap_immediate (t : VteTerminal) (ri : Nat) (Rw : VteRowData)
    (hcc : t.column_count ≤ t.screen.cursor_current.col)
    (ham : t.flag_am = true)
    (hxn : t.flag_xn = false)
    (hget : terminalGetRow t ri = some Rw)
    (hrow : t.screen.cursor_current.row = ri)
    (hres : t.screen.scrolling_restricted = false)
    (hne : ri ≠ t.screen.insert_delta + t.row_count - 1) :
    insertCharPostWrap t ri =
      terminalSetCursorRow
        (terminalSetRing (terminalSetCursorCol t 0)
          (ringSetRow (terminalSetCursorCol t 0).screen.row_data ri
            { Rw with soft_wrapped := true }))
        (ri + 1) := by
  unfold insertCharPostWrap
  rw [if_pos hcc]
  rw [if_pos (show _ ∧ _ from ⟨ham, by rw [hxn]; simp⟩)]
  simp only []
  rw [terminalModifyRow_of_get _ ri Rw _
    (show terminalGetRow (terminalSetCursorCol t 0) ri = some Rw from hget)]
  rw [cursor_down_unrestricted_notend
    (terminalSetRing (terminalSetCursorCol t 0)
      (ringSetRow (terminalSetCursorCol t 0).screen.row_data ri
        { Rw with soft_wrapped := true }))
    ri
    (by simp only [cursor_setRing, cursorRow_setCursorCol]; exact hrow)
    hres hne]

end Vte

namespace Vte

theorem insert_char_wrap_at_margin (u : VteTerminal) (c2 w2 r : Nat) (Ru R2 : VteRowData)
    (hst : u.screen.status_line = false)
    (hac : u.screen.alternate_charset = false)
    (him : u.screen.insert_mode = false)
    (hwc2 : u.unichar_width c2 = w2)
    (hw2pos : 0 < w2)
    (hcol : u.screen.cursor_current.col = u.column_count)
    (hrow : u.screen.cursor_current.row = r)
    (ham : u.flag_am = true)
    (hres : u.screen.scrolling_restricted = false)
    (hnotend : r ≠ u.screen.insert_delta + u.row_count - 1)
    (hd : u.screen.row_data.delta ≤ r)
    (hr2 : r + 1 < _vte_ring_next u.screen.row_data)
    (hRu : terminalGetRow u r = some Ru)
    (hR2 : terminalGetRow u (r + 1) = some R2)
    (hR2nil : R2.cells = [])
    (hw2cc : w2 < u.column_count) :
    (_vte_terminal_insert_char u c2 false false).2 = true ∧
    (_vte_terminal_insert_char u c2 false false).1.screen.cursor_current.row = r + 1 ∧
    (_vte_terminal_insert_char u c2 false false).1.screen.cursor_current.col = w2 ∧
    (terminalGetRow (_vte_terminal_insert_char u c2 false false).1 r).map
      VteRowData.soft_wrapped = some true ∧
    terminalGetRow (_vte_terminal_insert_char u c2 false false).1 (r + 1) =
      some { cells := writtenCells u.screen.defaults c2 w2,
             soft_wrapped := R2.soft_wrapped } := by
  have hr1 : r < _vte_ring_next u.screen.row_data := by omega
  have hlen1 : r - u.screen.row_data.delta < u.screen.row_data.rows.length := by
    unfold _vte_ring_next at hr1
    omega
  have hlen2 : r + 1 - u.screen.row_data.delta < u.screen.row_data.rows.length := by
    unfold _vte_ring_next at hr2
    omega
  have hprew : insertCharPreWrap u w2 =
      (terminalSetCursorRow
        (terminalSetRing (terminalSetCursorCol u 0)
          (ringSetRow (terminalSetCursorCol u 0).screen.row_data r
            { Ru with soft_wrapped := true }))
        (r + 1), true) := by
    unfold insertCharPreWrap
    rw [if_pos (show w2 ≠ 0 ∧ u.column_count < u.screen.cursor_current.col + w2 from
      ⟨by omega, by rw [hcol]; omega⟩)]
    rw [if_pos ham]
    simp only []
    rw [ensure_row_of_lt (terminalSetCursorCol u 0)
      (show (terminalSetCursorCol u 0).screen.cursor_current.row <
        _vte_ring_next (terminalSetCursorCol u 0).screen.row_data from by
        rw [cursorRow_setCursorCol, hrow]; exact hr1)]
    rw [show (terminalSetCursorCol u 0).screen.cursor_current.row = r from by
      rw [cursorRow_setCursorCol]; exact hrow]
    rw [terminalModifyRow_of_get _ r Ru _
      (show terminalGetRow (terminalSetCursorCol u 0) r = some Ru from hRu)]
    rw [cursor_down_unrestricted_notend
      (terminalSetRing (terminalSetCursorCol u 0)
        (ringSetRow (terminalSetCursorCol u 0).screen.row_data r
          { Ru with soft_wrapped := true }))
      r
      (by simp only [cursor_setRing, cursorRow_setCursorCol]; exact hrow)
      hres hnotend]
  set UW : VteTerminal := terminalSetCursorRow
      (terminalSetRing (terminalSetCursorCol u 0)
        (ringSetRow (terminalSetCursorCol u 0).screen.row_data r
          { Ru with soft_wrapped := true }))
      (r + 1) with hUW
  have hUWd : UW.screen.row_data.delta ≤ r + 1 := by
    show u.screen.row_data.delta ≤ r + 1
    omega
  have hUWnext : _vte_ring_next UW.screen.row_data = _vte_ring_next u.screen.row_data := by
    show _vte_ring_next (ringSetRow u.screen.row_data r { Ru with soft_wrapped := true }) =
      _vte_ring_next u.screen.row_data
    unfold _vte_ring_next ringSetRow
    simp
  have hUWr2 : r + 1 < _vte_ring_next UW.screen.row_data := by rw [hUWnext]; exact hr2
  have hUWget : terminalGetRow UW (r + 1) = some R2 := by
    show (u.screen.row_data.rows.set (r - u.screen.row_data.delta)
      { Ru with soft_wrapped := true }).get? (r + 1 - u.screen.row_data.delta) = some R2
    rw [get?_set_ne' _ _ _ _ (by omega)]
    unfold terminalGetRow _vte_ring_index at hR2
    exact hR2
  have hL0 : R2.cells.length ≤ 0 := by simp [hR2nil]
  have hmain := insertCharMain_pad_overwrite UW c2 w2 0 (r + 1) R2 rfl rfl hUWd hUWr2 hUWget
    hL0 (Or.inr rfl) hw2pos (show 0 + w2 ≤ UW.column_count from by
      show 0 + w2 ≤ u.column_count
      omega)
  have heq : _vte_terminal_insert_char u c2 false false =
      ({ terminalSetCursorCol
          (terminalSetRing UW (ringSetRow UW.screen.row_data (r + 1)
            { cells := (R2.cells ++ List.replicate (0 - R2.cells.length) basic_cell) ++
                writtenCells UW.screen.defaults c2 w2,
              soft_wrapped := R2.soft_wrapped }))
          (0 + w2) with text_inserted_flag := true }, true) := by
    unfold _vte_terminal_insert_char
    rw [hst, hac, him]
    simp only [Bool.or_false, if_false, Bool.false_eq_true, reduceIte, hwc2, hprew]
    rw [if_neg (show ¬ w2 = 0 from by omega)]
    rw [hmain]
    rw [insertCharPostWrap_nowrap
      (terminalSetCursorCol
        (terminalSetRing UW (ringSetRow UW.screen.row_data (r + 1)
          { cells := (R2.cells ++ List.replicate (0 - R2.cells.length) basic_cell) ++
              writtenCells UW.screen.defaults c2 w2,
            soft_wrapped := R2.soft_wrapped }))
        (0 + w2))
      UW.screen.cursor_current.row
      (show ¬ _ ≤ _ from by
        show ¬ u.column_count ≤ 0 + w2
        omega)]
  refine ⟨by rw [heq], by rw [heq]; rfl, ?_, ?_, ?_⟩
  · rw [heq]
    show 0 + w2 = w2
    omega
  · rw [heq]
    show (((u.screen.row_data.rows.set (r - u.screen.row_data.delta)
        { Ru with soft_wrapped := true }).set (r + 1 - u.screen.row_data.delta)
        { cells := (R2.cells ++ List.replicate (0 - R2.cells.length) basic_cell) ++
            writtenCells u.screen.defaults c2 w2,
          soft_wrapped := R2.soft_wrapped }).get?
        (r - u.screen.row_data.delta)).map VteRowData.soft_wrapped = some true
    rw [get?_set_ne' _ _ _ _ (by omega)]
    rw [get?_set_self' _ _ _ hlen1]
    rfl
  · rw [heq]
    show ((u.screen.row_data.rows.set (r - u.screen.row_data.delta)
        { Ru with soft_wrapped := true }).set (r + 1 - u.screen.row_data.delta)
        { cells := (R2.cells ++ List.replicate (0 - R2.cells.length) basic_cell) ++
            writtenCells u.screen.defaults c2 w2,
          soft_wrapped := R2.soft_wrapped }).get? (r + 1 - u.screen.row_data.delta) =
      some { cells := writtenCells u.screen.defaults c2 w2,
             soft_wrapped := R2.soft_wrapped }
    rw [get?_set_self' _ _ _ (by simp only [List.length_set]; exact hlen2)]
    simp [hR2nil]

end Vte

namespace Vte

/-- Claim C3: with autowrap enabled and the xn flag set, a character whose
last column lands exactly on the right margin leaves the cursor at the right
margin without wrapping — the row is not soft-wrapped and no cursor-down runs
— and the next character triggers the wrap: it reports line_wrapped, marks the
row soft-wrapped and is written at column 0 of the next row; with xn clear the
wrap happens immediately after the margin character is written. -/
theorem C3_margin_wrap (t : VteTerminal) (c c2 w w2 col r : Nat) (R R2 : VteRowData)
    (hst : t.screen.status_line = false)
    (hac : t.screen.alternate_charset = false)
    (him : t.screen.insert_mode = false)
    (hwc : t.unichar_width c = w)
    (hwc2 : t.unichar_width c2 = w2)
    (hwpos : 0 < w)
    (hw2pos : 0 < w2)
    (hcol : t.screen.cursor_current.col = col)
    (hrow : t.screen.cursor_current.row = r)
    (hd : t.screen.row_data.delta ≤ r)
    (hr2 : r + 1 < _vte_ring_next t.screen.row_data)
    (hR : terminalGetRow t r = some R)
    (hL : R.cells.length ≤ col)
    (hL2 : R.cells.length < col ∨ col = 0)
    (hcw : col + w = t.column_count)
    (hR2 : terminalGetRow t (r + 1) = some R2)
    (hR2nil : R2.cells = [])
    (ham : t.flag_am = true)
    (hres : t.screen.scrolling_restricted = false)
    (hnotend : r ≠ t.screen.insert_delta + t.row_count - 1)
    (hw2cc : w2 < t.column_count) :
    (t.flag_xn = true →
      (_vte_terminal_insert_char t c false false).2 = false ∧
      (_vte_terminal_insert_char t c false false).1.screen.cursor_current.col =
        t.column_count ∧
      (_vte_terminal_insert_char t c false false).1.screen.cursor_current.row = r ∧
      (terminalGetRow (_vte_terminal_insert_char t c false false).1 r).map
        VteRowData.soft_wrapped = some R.soft_wrapped ∧
      ((_vte_terminal_insert_char (_vte_terminal_insert_char t c false false).1
          c2 false false).2 = true ∧
       (_vte_terminal_insert_char (_vte_terminal_insert_char t c false false).1
          c2 false false).1.screen.cursor_current.row = r + 1 ∧
       (_vte_terminal_insert_char (_vte_terminal_insert_char t c false false).1
          c2 false false).1.screen.cursor_current.col = w2 ∧
       (terminalGetRow (_vte_terminal_insert_char (_vte_terminal_insert_char t c false false).1
          c2 false false).1 r).map VteRowData.soft_wrapped = some true ∧
       terminalGetRow (_vte_terminal_insert_char (_vte_terminal_insert_char t c false false).1
          c2 false false).1 (r + 1) =
         some { cells := writtenCells t.screen.defaults c2 w2,
                soft_wrapped := R2.soft_wrapped })) ∧
    (t.flag_xn = false →
      (_vte_terminal_insert_char t c false false).2 = false ∧
      (_vte_terminal_insert_char t c false false).1.screen.cursor_current.row = r + 1 ∧
      (_vte_terminal_insert_char t c false false).1.screen.cursor_current.col = 0 ∧
      terminalGetRow (_vte_terminal_insert_char t c false false).1 r =
        some { cells := (R.cells ++ List.replicate (col - R.cells.length) basic_cell) ++
                 writtenCells t.screen.defaults c w,
               soft_wrapped := true }) := by
  have hr1 : r < _vte_ring_next t.screen.row_data := by omega
  refine ⟨fun hxn => ?_, fun hxnf => ?_⟩
  · have heqA := insert_char_overwrite_nowrap t c w col r R hst hac him hwc hcol hrow hd hr1
      hR hL hL2 hwpos (le_of_eq hcw)
      (fun _ hpair => by
        have h2 := hpair.2
        rw [hxn] at h2
        simp at h2)
    set RW : VteRowData :=
      { cells := (R.cells ++ List.replicate (col - R.cells.length) basic_cell) ++
          writtenCells t.screen.defaults c w,
        soft_wrapped := R.soft_wrapped } with hRW
    have hg : terminalGetRow (_vte_terminal_insert_char t c false false).1 r = some RW := by
      rw [heqA]
      exact terminalGetRow_setRing_set t r RW hd hr1
    refine ⟨?_, ?_, ?_, ?_, ?_⟩
    · rw [heqA]
    · rw [heqA]
      exact hcw
    · rw [heqA]
      exact hrow
    · rw [hg]
      rfl
    · rw [heqA]
      refine insert_char_wrap_at_margin _ c2 w2 r RW R2 ?_ ?_ ?_ ?_ ?_ ?_ ?_ ?_ ?_ ?_ ?_ ?_
        ?_ ?_ ?_ ?_
      · exact hst
      · exact hac
      · exact him
      · exact hwc2
      · exact hw2pos
      · exact hcw
      · exact hrow
      · exact ham
      · exact hres
      · exact hnotend
      · exact hd
      · exact lt_of_lt_of_eq hr2 (next_setRing_setRow t r RW).symm
      · exact terminalGetRow_setRing_set t r RW hd hr1
      · exact (terminalGetRow_setRing_set_ne t r (r + 1) RW (by omega)).trans hR2
      · exact hR2nil
      · exact hw2cc
  · have hpre0 : insertCharPreWrap t w = (t, false) := by
      unfold insertCharPreWrap
      rw [if_neg (by rw [hcol]; omega)]
    set RW : VteRowData :=
      { cells := (R.cells ++ List.replicate (col - R.cells.length) basic_cell) ++
          writtenCells t.screen.defaults c w,
        soft_wrapped := R.soft_wrapped } with hRW
    have hmainB := insertCharMain_pad_overwrite t c w col r R hcol hrow hd hr1 hR hL hL2
      hwpos (le_of_eq hcw)
    have heqB : _vte_terminal_insert_char t c false false =
        ({ terminalSetCursorRow
            (terminalSetRing
              (terminalSetCursorCol
                (terminalSetCursorCol (terminalSetRing t (ringSetRow t.screen.row_data r RW))
                  (col + w)) 0)
              (ringSetRow
                (terminalSetCursorCol
                  (terminalSetCursorCol (terminalSetRing t (ringSetRow t.screen.row_data r RW))
                    (col + w)) 0).screen.row_data r
                { RW with soft_wrapped := true }))
            (r + 1) with text_inserted_flag := true }, false) := by
      unfold _vte_terminal_insert_char
      rw [hst, hac, him]
      simp only [Bool.or_false, if_false, Bool.false_eq_true, reduceIte, hwc, hpre0]
      rw [if_neg (show ¬ w = 0 from by omega)]
      rw [hmainB]
      rw [show t.screen.cursor_current.row = r from hrow]
      rw [insertCharPostWrap_immediate
        (terminalSetCursorCol (terminalSetRing t (ringSetRow t.screen.row_data r RW))
          (col + w))
        r RW
        (show _ ≤ _ from by
          show t.column_count ≤ col + w
          omega)
        ham hxnf
        (terminalGetRow_setRing_set t r RW hd hr1)
        hrow hres hnotend]
    refine ⟨?_, ?_, ?_, ?_⟩
    · rw [heqB]
    · rw [heqB]
      rfl
    · rw [heqB]
      rfl
    · rw [heqB]
      show ((t.screen.row_data.rows.set (r - t.screen.row_data.delta) RW).set
          (r - t.screen.row_data.delta) { RW with soft_wrapped := true }).get?
          (r - t.screen.row_data.delta) =
        some { cells := (R.cells ++ List.replicate (col - R.cells.length) basic_cell) ++
                 writtenCells t.screen.defaults c w,
               soft_wrapped := true }
      rw [list_set_set']
      rw [get?_set_self' _ _ _ (by unfold _vte_ring_next at hr1; omega)]

end Vte

namespace Vte

theorem C3_margin_wrap_witness :
    (_vte_terminal_insert_char c3Term 97 false false).2 = false ∧
    (_vte_terminal_insert_char c3Term 97 false false).1.screen.cursor_current.col =
      c3Term.column_count ∧
    (_vte_terminal_insert_char (_vte_terminal_insert_char c3Term 97 false false).1
        98 false false).1.screen.cursor_current.row = 1 ∧
    (_vte_terminal_insert_char c3TermNoXn 97 false false).1.screen.cursor_current.row = 1 := by
  have hA := C3_margin_wrap c3Term 97 98 1 1 3 0 emptyRowData emptyRowData rfl rfl rfl rfl rfl
    (by decide) (by decide) rfl rfl (by decide) (by decide) (by decide) (by decide)
    (Or.inl (by decide)) (by decide) (by decide) (by decide) rfl rfl (by decide) (by decide)
  have hB := C3_margin_wrap c3TermNoXn 97 98 1 1 3 0 emptyRowData emptyRowData rfl rfl rfl rfl
    rfl (by decide) (by decide) rfl rfl (by decide) (by decide) (by decide) (by decide)
    (Or.inl (by decide)) (by decide) (by decide) (by decide) rfl rfl (by decide) (by decide)
  exact ⟨(hA.1 rfl).1, (hA.1 rfl).2.1, ((hA.1 rfl).2.2.2.2).2.1, (hB.2 rfl).2.1⟩

end Vte

namespace Vte

theorem C2_break_witness :
    insertCharBreakRight 0 { cells := [wideFrag], soft_wrapped := false } =
      { cells := [{ wideFrag with c := [0], attr := { wideFrag.attr with columns := 1 } }],
        soft_wrapped := false } ∧
    insertCharBreakLeft 1 { cells := [wideBase, wideFrag], soft_wrapped := false } =
      { cells := [{ wideBase with attr := { wideBase.attr with columns := 1 } }, wideFrag],
        soft_wrapped := false } := by
  have h := C2_break [] [wideFrag] [] [] wideBase [] [wideFrag] false false
    (by decide) (fun cl0 h0 => Option.noConfusion h0) (by decide) (by decide)
  exact ⟨h.1, h.2⟩

theorem C4_linefeed_scrollback_witness :
    (_vte_terminal_cursor_down c4Term).screen.insert_delta = 1 ∧
    (_vte_terminal_cursor_down c4Term).screen.scroll_delta = 1 ∧
    (_vte_terminal_cursor_down c4Term).screen.cursor_current.row = 2 ∧
    terminalGetRow (_vte_terminal_cursor_down c4Term) 0 = terminalGetRow c4Term 0 := by
  have h := C4_linefeed_scrollback c4Term rfl rfl rfl (by decide) (by decide) (by decide)
    (by decide) rfl
  exact ⟨h.1, h.2.1, h.2.2.1, h.2.2.2.2.2.2 0 (by decide)⟩

theorem C5_region_linefeed_witness :
    _vte_ring_next (_vte_terminal_cursor_down c5Term).screen.row_data =
      _vte_ring_next c5Term.screen.row_data ∧
    (_vte_terminal_cursor_down c5Term).screen.cursor_current =
      c5Term.screen.cursor_current ∧
    terminalGetRow (_vte_terminal_cursor_down c5Term) 0 = terminalGetRow c5Term 0 ∧
    terminalGetRow (_vte_terminal_cursor_down c5Term) 1 = terminalGetRow c5Term 2 ∧
    terminalGetRow (_vte_terminal_cursor_down c5Term) 2 =
      some { cells := List.replicate 2 basic_cell, soft_wrapped := false } ∧
    terminalGetRow (_vte_terminal_cursor_down c5Term) 3 = terminalGetRow c5Term 3 := by
  have h := C5_region_linefeed c5Term rfl (by decide) (by decide) rfl (by decide) (by decide)
    (by decide) rfl
  refine ⟨h.2.1, h.2.2.1, ?_, ?_, ?_, ?_⟩
  · exact h.2.2.2.2.2.2.1 0 (by decide) (by decide)
  · exact h.2.2.2.2.2.2.2.2 1 (by decide) (by decide)
  · exact h.2.2.2.2.2.1
  · exact h.2.2.2.2.2.2.2.1 3 (by decide) (by decide)

end Vte

namespace Vte

theorem insertCharMain_overwrite_last (t : VteTerminal) (c col r : Nat)
    (pre : List VteCell) (z : VteCell) (sw : Bool)
    (hcol : t.screen.cursor_current.col = col)
    (hrow : t.screen.cursor_current.row = r)
    (hd : t.screen.row_data.delta ≤ r)
    (hr : r < _vte_ring_next t.screen.row_data)
    (hRu : terminalGetRow t r = some { cells := pre ++ [z], soft_wrapped := sw })
    (hlen : pre.length = col)
    (hz9 : z.c ≠ [9])
    (hnul : ¬(c = 95 ∧ t.flag_ul = true))
    (hside : col = 0 ∨ ∃ cl, pre.get? (col - 1) = some cl ∧
      cl.attr.fragment = false ∧ cl.attr.columns = 1)
    (hcw : col + 1 ≤ t.column_count) :
    insertCharMain t c 1 false =
      terminalSetCursorCol
        (terminalSetRing t (ringSetRow t.screen.row_data r
          { cells := pre ++
              [{ c := [c], attr := { t.screen.defaults.attr with columns := 1 } }],
            soft_wrapped := sw }))
        (col + 1) := by
  set Row : VteRowData := { cells := pre ++ [z], soft_wrapped := sw } with hRowd
  have hlenR : Row.cells.length = col + 1 := by
    rw [hRowd]
    simp [hlen]
  have hgetz : _vte_row_data_get Row col = some z := by
    rw [hRowd]
    unfold _vte_row_data_get
    simp only
    rw [show col = pre.length + 0 from by omega]
    rw [get?_append_offset]
    rfl
  have h1 : vte_terminal_ensure_cursor t = t := by
    unfold vte_terminal_ensure_cursor
    simp only []
    rw [ensure_row_of_lt t (by rw [hrow]; exact hr)]
    rw [hrow, hcol]
    apply terminalModifyRow_congr_id t r Row _ hRu
    unfold _vte_row_data_fill
    rw [show col - Row.cells.length = 0 from by omega]
    simp
  have h2 : _vte_terminal_cleanup_tab_fragments_at_cursor t = t := by
    unfold _vte_terminal_cleanup_tab_fragments_at_cursor
    simp only []
    rw [ensure_row_of_lt t (by rw [hrow]; exact hr)]
    rw [hrow, hcol]
    apply terminalModifyRow_congr_id t r Row _ hRu
    simp only [hgetz]
    rw [if_neg hz9]
  have h3 : insertCharPadCells t.screen col 1 false Row = Row := by
    unfold insertCharPadCells
    rw [if_neg (by simp)]
    unfold _vte_row_data_fill
    rw [show col + 1 - Row.cells.length = 0 from by omega]
    simp
  have h4 : insertCharBreakLeft col Row = Row := by
    unfold insertCharBreakLeft
    by_cases hc0 : 0 < col
    · rw [if_pos hc0]
      rcases hside with h0 | ⟨cl, hget, hfr, hc1⟩
      · omega
      · have hgetR : Row.cells.get? (col - 1) = some cl := by
          rw [hRowd]
          simp only
          rw [get?_append_left' _ _ _ (by omega)]
          exact hget
        have hback : backOverFragments Row (col - 1) = col - 1 :=
          backOverFragments_nonfragment Row (col - 1) cl hgetR hfr
        rw [hback]
        simp only [rowModifyCell, hgetR]
        unfold rowSetCell
        have hcell : ({ cl with attr := { cl.attr with columns := col - (col - 1) } } :
            VteCell) = cl := by
          rw [show col - (col - 1) = 1 from by omega]
          rw [← hc1]
        rw [hcell, set_of_get? _ _ _ hgetR]
    · rw [if_neg hc0]
  have h5 : insertCharBreakRight (col + 1) Row = Row := by
    unfold insertCharBreakRight
    rw [List.drop_eq_nil_of_le (by omega)]
    rw [take_of_length_le' _ _ (by omega)]
    show ({ cells := Row.cells ++ blankWideFragments [], soft_wrapped := Row.soft_wrapped } :
      VteRowData) = Row
    simp [blankWideFragments]
  have h6 : insertCharWriteCell t.screen.defaults t.flag_ul t.column_count c 1 col Row =
      { cells := pre ++ [{ c := [c], attr := { t.screen.defaults.attr with columns := 1 } }],
        soft_wrapped := sw } := by
    unfold insertCharWriteCell
    simp only []
    rw [if_neg hnul]
    have hset : Row.cells.set col
        ({ c := [c], attr := { t.screen.defaults.attr with columns := 1 } } : VteCell) =
        pre ++ [{ c := [c], attr := { t.screen.defaults.attr with columns := 1 } }] := by
      rw [hRowd]
      simp only
      rw [set_append_ge _ _ _ _ (by omega)]
      rw [hlen, Nat.sub_self]
      rfl
    show ({
        cells := (Row.cells.set col { c := [c], attr := { t.screen.defaults.attr with columns := 1 } }).take t.column_count,
        soft_wrapped := Row.soft_wrapped } : VteRowData) =
      { cells := pre ++ [{ c := [c], attr := { t.screen.defaults.attr with columns := 1 } }],
        soft_wrapped := sw }
    rw [hset]
    rw [take_of_length_le' _ _ (by simp [hlen]; omega)]
  unfold insertCharMain
  simp only []
  rw [hcol, hrow, h1, h2]
  rw [terminalModifyRow_congr_id t r Row _ hRu h3]
  rw [terminalModifyRow_congr_id t r Row _ hRu h4]
  rw [terminalModifyRow_congr_id t r Row _ hRu h5]
  rw [terminalModifyRow_of_get t r Row _ hRu]
  rw [h6]

end Vte

namespace Vte

theorem insert_char_overwrite_last_nowrap (u : VteTerminal) (c col r : Nat)
    (pre : List VteCell) (z : VteCell) (sw : Bool)
    (hst : u.screen.status_line = false)
    (hac : u.screen.alternate_charset = false)
    (him : u.screen.insert_mode = false)
    (hwc : u.unichar_width c = 1)
    (hcol : u.screen.cursor_current.col = col)
    (hrow : u.screen.cursor_current.row = r)
    (hd : u.screen.row_data.delta ≤ r)
    (hr : r < _vte_ring_next u.screen.row_data)
    (hRu : terminalGetRow u r = some { cells := pre ++ [z], soft_wrapped := sw })
    (hlen : pre.length = col)
    (hz9 : z.c ≠ [9])
    (hnul : ¬(c = 95 ∧ u.flag_ul = true))
    (hside : col = 0 ∨ ∃ cl, pre.get? (col - 1) = some cl ∧
      cl.attr.fragment = false ∧ cl.attr.columns = 1)
    (hcw : col + 1 < u.column_count) :
    _vte_terminal_insert_char u c false false =
      ({ terminalSetCursorCol
          (terminalSetRing u (ringSetRow u.screen.row_data r
            { cells := pre ++
                [{ c := [c], attr := { u.screen.defaults.attr with columns := 1 } }],
              soft_wrapped := sw }))
          (col + 1) with text_inserted_flag := true }, false) := by
  have hpre0 : insertCharPreWrap u 1 = (u, false) := by
    unfold insertCharPreWrap
    rw [if_neg (by rw [hcol]; omega)]
  unfold _vte_terminal_insert_char
  rw [hst, hac, him]
  simp only [Bool.or_false, if_false, Bool.false_eq_true, reduceIte, hwc, hpre0]
  rw [if_neg (by omega : ¬ (1 : Nat) = 0)]
  rw [insertCharMain_overwrite_last u c col r pre z sw hcol hrow hd hr hRu hlen hz9 hnul
    hside (le_of_lt hcw)]
  rw [show u.screen.cursor_current.row = r from hrow]
  rw [insertCharPostWrap_nowrap
    (terminalSetCursorCol
      (terminalSetRing u (ringSetRow u.screen.row_data r
        { cells := pre ++
            [{ c := [c], attr := { u.screen.defaults.attr with columns := 1 } }],
          soft_wrapped := sw }))
      (col + 1))
    r
    (show ¬ _ ≤ _ from by
      show ¬ u.column_count ≤ col + 1
      omega)]

theorem overwrite_last_collapse (t : VteTerminal) (r col : Nat) (a b : VteRowData)
    (hab : b = a) :
    ({ terminalSetCursorCol
        (terminalSetRing
          (backspaceCursor
            ({ terminalSetCursorCol (terminalSetRing t (ringSetRow t.screen.row_data r a))
                (col + 1) with text_inserted_flag := true }))
          (ringSetRow
            (backspaceCursor
              ({ terminalSetCursorCol (terminalSetRing t (ringSetRow t.screen.row_data r a))
                  (col + 1) with text_inserted_flag := true })).screen.row_data r b))
        (col + 1) with text_inserted_flag := true } : VteTerminal) =
      { terminalSetCursorCol (terminalSetRing t (ringSetRow t.screen.row_data r a))
          (col + 1) with text_inserted_flag := true } := by
  subst hab
  unfold backspaceCursor terminalSetCursorCol terminalSetRing ringSetRow
  simp only [list_set_set']

end Vte

namespace Vte

/-- Claim C9 (amended): overstrike idempotence — insert, backspace, insert
again equals a single insert — holds for width-one code points that are not
the tab character, under the claim's own exclusion of underscore overstrike
underlining (c = 95 with the ul flag); it fails for double-width characters,
whose re-insertion at the backspaced cursor column breaks the wide cell, as
the counterexample shows. -/
theorem C9_overstrike_idempotent (t : VteTerminal) (c col r : Nat) (R : VteRowData)
    (hst : t.screen.status_line = false)
    (hac : t.screen.alternate_charset = false)
    (him : t.screen.insert_mode = false)
    (hwc : t.unichar_width c = 1)
    (hc9 : c ≠ 9)
    (hnul : ¬(c = 95 ∧ t.flag_ul = true))
    (hcol : t.screen.cursor_current.col = col)
    (hrow : t.screen.cursor_current.row = r)
    (hd : t.screen.row_data.delta ≤ r)
    (hr : r < _vte_ring_next t.screen.row_data)
    (hR : terminalGetRow t r = some R)
    (hL : R.cells.length ≤ col)
    (hL2 : R.cells.length < col ∨ col = 0)
    (hcw : col + 1 < t.column_count) :
    _vte_terminal_insert_char
        (backspaceCursor (_vte_terminal_insert_char t c false false).1) c false false =
      ((_vte_terminal_insert_char t c false false).1, false) := by
  have heq1 := insert_char_overwrite_nowrap t c 1 col r R hst hac him hwc hcol hrow hd hr hR
    hL hL2 Nat.one_pos (le_of_lt hcw)
    (fun hcc => absurd hcc (by omega))
  rw [heq1]
  refine Eq.trans (insert_char_overwrite_last_nowrap _ c col r
      (R.cells ++ List.replicate (col - R.cells.length) basic_cell)
      { c := [c], attr := { t.screen.defaults.attr with columns := 1 } }
      R.soft_wrapped ?_ ?_ ?_ ?_ ?_ ?_ ?_ ?_ ?_ ?_ ?_ ?_ ?_ ?_) ?_
  · exact hst
  · exact hac
  · exact him
  · exact hwc
  · show col + 1 - 1 = col
    omega
  · exact hrow
  · exact hd
  · exact lt_of_lt_of_eq hr (next_setRing_setRow t r
      { cells := (R.cells ++ List.replicate (col - R.cells.length) basic_cell) ++
          writtenCells t.screen.defaults c 1,
        soft_wrapped := R.soft_wrapped }).symm
  · exact terminalGetRow_setRing_set t r
      { cells := (R.cells ++ List.replicate (col - R.cells.length) basic_cell) ++
          writtenCells t.screen.defaults c 1,
        soft_wrapped := R.soft_wrapped } hd hr
  · simp only [List.length_append, List.length_replicate]
    omega
  · simpa using hc9
  · exact hnul
  · rcases hL2 with hlt | h0
    · refine Or.inr ⟨basic_cell, ?_, rfl, rfl⟩
      rw [get?_append_ge _ _ _ (by omega)]
      exact get?_replicate' _ _ _ (by omega)
    · exact Or.inl h0
  · exact hcw
  · exact congrArg (fun s => (s, false))
      (overwrite_last_collapse t r col
        { cells := (R.cells ++ List.replicate (col - R.cells.length) basic_cell) ++
            writtenCells t.screen.defaults c 1,
          soft_wrapped := R.soft_wrapped }
        { cells := (R.cells ++ List.replicate (col - R.cells.length) basic_cell) ++
            [{ c := [c], attr := { t.screen.defaults.attr with columns := 1 } }],
          soft_wrapped := R.soft_wrapped }
        rfl)

theorem C9_overstrike_idempotent_witness :
    _vte_terminal_insert_char
        (backspaceCursor (_vte_terminal_insert_char c9Term 97 false false).1) 97 false false =
      ((_vte_terminal_insert_char c9Term 97 false false).1, false) :=
  C9_overstrike_idempotent c9Term 97 0 0 emptyRowData rfl rfl rfl rfl (by decide) (by decide)
    rfl rfl (by decide) (by decide) (by decide) (by decide) (Or.inr rfl) (by decide)

end Vte
